import Mathlib

/-!
Payment menu and webhook fulfilment core: a shallow embedding.

The Go sources embedded here are

* `internal/stripe/webhook.go`   (`VerifyWebhookSignature`, `WebhookHandler`)
* `internal/handler/payment_handlers.go` (`parseCallbackData`, `PaymentCallbackHandler`)
* `internal/handler/callback_type.go`    (the callback action constants)

Conventions of the embedding.

* A Go `string` / `[]byte` is a `GoString`, a list of characters.  All separators the
  code looks for (`,`, `=`, `?`, `&`) are ASCII, so splitting a character list agrees
  with splitting the UTF-8 byte sequence.
* Go's `int64`/`int` values are `Int`s; the places where the 64-bit range matters
  (`strconv.ParseInt`, `time.Unix`, `Time.Sub`) wrap or saturate explicitly.
* Standard-library functions are modelled by their documented behaviour
  (`strings.Split`, `strings.SplitN`, `strings.TrimSpace`, `strconv.ParseInt`,
  `strconv.Atoi`, `strconv.FormatInt`, `hex.EncodeToString`, `time.Unix`, `time.Since`).
* HMAC-SHA-256, the JSON decoder, the wall clock, the configuration package and the
  repositories/services behind the handlers are parameters.
* `slog` calls are not effects of the model.
-/

namespace Shop

/-- A Go string (or byte slice) as a list of characters. -/
abbrev GoString := List Char

/-! ## `strings` -/

/-- Position of the first occurrence of the one-byte separator `sep`
(`strings.Index(s, sep)`), `none` standing for `-1`. -/
def indexByte (sep : Char) : GoString → Option Nat
  | [] => none
  | x :: xs => if x = sep then some 0 else (indexByte sep xs).map (· + 1)

/-- Number of occurrences of `sep` (`strings.Count(s, sep)`). -/
def countByte (sep : Char) (s : GoString) : Nat := s.count sep

/-- The loop of `strings.genSplit` for a one-byte separator: `k` is the number of
cuts still allowed (`n-1-i` in the Go code); each round cuts at `Index(s, sep)` and
continues with `s[m+len(sep):]`, the rest of the string being the last field. -/
def genSplitLoop (sep : Char) : Nat → GoString → List GoString
  | 0, s => [s]
  | k + 1, s =>
    match indexByte sep s with
    | none => [s]
    | some m => s.take m :: genSplitLoop sep k (s.drop (m + 1))

/-- Model of `strings.genSplit(s, sep, 0, n)` for a one-byte `sep`:
`n == 0` gives nil, `n < 0` means all fields, and `n` is capped at `len(s)+1`. -/
def genSplit (s : GoString) (sep : Char) (n : Int) : List GoString :=
  if n = 0 then []
  else
    let n1 : Nat := if n < 0 then countByte sep s + 1 else n.toNat
    let n2 : Nat := if n1 > s.length + 1 then s.length + 1 else n1
    genSplitLoop sep (n2 - 1) s

/-- Model of `strings.Split(s, sep)`. -/
def Split (s : GoString) (sep : Char) : List GoString := genSplit s sep (-1)

/-- Model of `strings.SplitN(s, sep, n)`. -/
def SplitN (s : GoString) (sep : Char) (n : Int) : List GoString := genSplit s sep n

/-- Model of `unicode.IsSpace`: the Latin-1 spaces `\t \n \v \f \r`, space, U+0085,
U+00A0, and the other code points of the Unicode `White_Space` table. -/
def isSpace (c : Char) : Bool :=
  let r := c.toNat
  (9 ≤ r && r ≤ 13) || r = 32 || r = 0x85 || r = 0xA0 || r = 0x1680 ||
  (0x2000 ≤ r && r ≤ 0x200a) || r = 0x2028 || r = 0x2029 || r = 0x202f ||
  r = 0x205f || r = 0x3000

/-- Model of `strings.TrimSpace`: leading and trailing white space removed. -/
def TrimSpace (s : GoString) : GoString :=
  ((s.dropWhile isSpace).reverse.dropWhile isSpace).reverse

/-! ## `strconv` -/

/-- Error kinds of `strconv.NumError`. -/
inductive NumError
  | errSyntax
  | errRange
  deriving DecidableEq, Repr

/-- Largest `uint64`. -/
def maxUint64 : Nat := 2 ^ 64 - 1

/-- Digit loop of `strconv.ParseUint(s, 10, 64)`: a non-digit byte is a syntax error
(value 0); an overflow of `n*10` or of `n*10 + d` is a range error that returns
`maxUint64` at once, without looking at the rest of the input. -/
def parseUintLoop : GoString → Nat → Nat × Option NumError
  | [], n => (n, none)
  | c :: cs, n =>
    if 48 ≤ c.toNat ∧ c.toNat ≤ 57 then
      let d := c.toNat - 48
      if n ≥ maxUint64 / 10 + 1 then (maxUint64, some .errRange)
      else
        let n10 := n * 10
        let n1 := (n10 + d) % 2 ^ 64
        if n1 < n10 ∨ n1 > maxUint64 then (maxUint64, some .errRange)
        else parseUintLoop cs n1
    else (0, some .errSyntax)

/-- Model of `strconv.ParseUint(s, 10, 64)`. -/
def ParseUint (s : GoString) : Nat × Option NumError :=
  if s = [] then (0, some .errSyntax) else parseUintLoop s 0

/-- Model of `strconv.ParseInt(s, 10, 64)`: optional sign, then `ParseUint`; a syntax
error returns 0, a range error returns the nearest bound of `int64`. -/
def ParseInt (s : GoString) : Int × Option NumError :=
  match s with
  | [] => (0, some .errSyntax)
  | c :: rest =>
    let neg := c = '-'
    let digits := if c = '+' ∨ c = '-' then rest else s
    match ParseUint digits with
    | (_, some .errSyntax) => (0, some .errSyntax)
    | (un, _) =>
      let cutoff : Nat := 2 ^ 63
      if ¬ neg ∧ un ≥ cutoff then (((cutoff : Int) - 1), some .errRange)
      else if neg ∧ un > cutoff then (-(cutoff : Int), some .errRange)
      else (if neg then -(un : Int) else (un : Int), none)

/-- Model of `strconv.Atoi` on a 64-bit platform, where it agrees with
`ParseInt(s, 10, 64)` on its fast and slow paths. -/
def Atoi (s : GoString) : Int × Option NumError := ParseInt s

/-- Digits of `strconv.FormatUint(n, 10)`, most significant first, pushed in front of
`acc`; `fuel` bounds the number of digits. -/
def formatUintAux : Nat → Nat → GoString → GoString
  | 0, _, acc => acc
  | fuel + 1, n, acc =>
    if n < 10 then Char.ofNat (48 + n) :: acc
    else formatUintAux fuel (n / 10) (Char.ofNat (48 + n % 10) :: acc)

/-- Model of `strconv.FormatUint(n, 10)` for `n < 2^64` (at most 20 digits). -/
def FormatUint (n : Nat) : GoString := formatUintAux 20 n []

/-- Model of `strconv.FormatInt(n, 10)`, also the rendering of the `%d` verb. -/
def FormatInt (n : Int) : GoString :=
  if n < 0 then '-' :: FormatUint (-n).toNat else FormatUint n.toNat

/-! ## `encoding/hex` and the MAC -/

/-- The digit table of `encoding/hex`. -/
def hextable : GoString := "0123456789abcdef".toList

/-- Model of `hex.EncodeToString`: two lowercase digits per byte, `hextable[b>>4]`
then `hextable[b&0x0f]`. -/
def hexEncode : List (Fin 256) → GoString
  | [] => []
  | b :: bs => hextable.getD (b.val / 16) '0' :: hextable.getD (b.val % 16) '0' :: hexEncode bs

/-- A SHA-256 sized digest: the 32 bytes returned by `mac.Sum(nil)`. -/
structure Digest where
  bytes : List (Fin 256)
  size_eq : bytes.length = 32

/-- The keyed hash `hmac.New(sha256.New, key)` followed by `Write(msg)` and `Sum(nil)`,
kept abstract: first argument the key, second the message. -/
abbrev Hmac := GoString → GoString → Digest

/-! ## `time` -/

/-- Seconds from the internal epoch (year 1) to the Unix epoch, `unixToInternal`. -/
def unixToInternal : Int := 62135596800

/-- Two's-complement wrap-around of `int64` arithmetic. -/
def wrapInt64 (x : Int) : Int := (x + 2 ^ 63) % 2 ^ 64 - 2 ^ 63

/-- A `time.Time` without monotonic reading: seconds since the internal epoch and
nanoseconds within the second. -/
structure Time where
  sec : Int
  nsec : Int
  deriving DecidableEq, Repr

/-- Model of `time.Unix(sec, 0)`: `Time{0, sec + unixToInternal, Local}`, the addition
being an `int64` addition.  (The library documents that not every `sec` has a
corresponding time value, `1<<63-1` being one that has not.) -/
def timeUnix (sec : Int) : Time := ⟨wrapInt64 (sec + unixToInternal), 0⟩

/-- Largest `time.Duration`. -/
def maxDuration : Int := 2 ^ 63 - 1

/-- Smallest `time.Duration`. -/
def minDuration : Int := -(2 ^ 63)

/-- Model of `Time.Sub`: the difference in nanoseconds, saturated at the largest and
smallest duration. -/
def Time.Sub (t u : Time) : Int :=
  let d := (t.sec - u.sec) * 10 ^ 9 + (t.nsec - u.nsec)
  if d > maxDuration then maxDuration else if d < minDuration then minDuration else d

/-- The reading of `time.Now()` when the wall clock shows `nowUnixNano` nanoseconds
since the Unix epoch. -/
def timeNow (nowUnixNano : Nat) : Time :=
  ⟨unixToInternal + (nowUnixNano / 10 ^ 9 : Nat), (nowUnixNano % 10 ^ 9 : Nat)⟩

/-- Model of `time.Since(t)`, the clock passed explicitly. -/
def timeSince (nowUnixNano : Nat) (t : Time) : Int := (timeNow nowUnixNano).Sub t

/-! ## `internal/stripe/webhook.go` -/

/-- The constant `signatureTolerance = 300 * time.Second`, in nanoseconds. -/
def signatureTolerance : Int := 300 * 10 ^ 9

/-- The part of `stripe.Client` the webhook code reads. -/
structure Client where
  secretKey : GoString
  webhookSecret : GoString

/-- The four errors `VerifyWebhookSignature` can return. -/
inductive VerifyError
  | missingHeader
  | invalidFormat
  | timestampTooOld
  | signatureMismatch
  deriving DecidableEq, Repr

/-- One round of the loop over the comma-separated parts of the header: the pair is
the current value of the variables `t` and `v1`. -/
def scanPart (st : Int × GoString) (p : GoString) : Int × GoString :=
  match SplitN (TrimSpace p) '=' 2 with
  | [k, v] =>
    if k = ['t'] then ((ParseInt v).1, st.2)
    else if k = ['v', '1'] then (st.1, v)
    else st
  | _ => st

/-- The values of `t` and `v1` after the loop, both starting from their zero value. -/
def scanHeader (signatureHeader : GoString) : Int × GoString :=
  (Split signatureHeader ',').foldl scanPart (0, [])

/-- Model of `(*Client).VerifyWebhookSignature`; `none` is the `nil` error. -/
def VerifyWebhookSignature (hmacSHA256 : Hmac) (nowUnixNano : Nat) (c : Client)
    (body signatureHeader : GoString) : Option VerifyError :=
  if signatureHeader = [] then some .missingHeader
  else
    let tv := scanHeader signatureHeader
    let t := tv.1
    let v1 := tv.2
    if v1 = [] ∨ t = 0 then some .invalidFormat
    else if timeSince nowUnixNano (timeUnix t) > signatureTolerance then some .timestampTooOld
    else
      let payload := FormatInt t ++ '.' :: body
      let expected := hexEncode (hmacSHA256 c.webhookSecret payload).bytes
      if ¬ (expected = v1) then some .signatureMismatch
      else none

/-- A stand-in keyed hash for evaluating the model: thirty-two zero bytes. -/
def zeroHmac : Hmac := fun _ _ => ⟨List.replicate 32 0, by decide⟩

/-- The header `t=<t>,v1=<s>`, the timestamp in canonical decimal. -/
def stripeSignatureHeader (t : Int) (s : GoString) : GoString :=
  't' :: '=' :: (FormatInt t ++ ',' :: 'v' :: '1' :: '=' :: s)

/-- A Go `map[string]string`, kept as an association list with distinct keys. -/
abbrev GoMap := List (GoString × GoString)

/-- The two-valued lookup `v, ok := m[k]`. -/
def GoMap.lookup : GoMap → GoString → Option GoString
  | [], _ => none
  | (k1, v) :: m, k => if k1 = k then some v else GoMap.lookup m k

/-- The one-valued lookup `m[k]`, the empty string when the key is absent. -/
def GoMap.get (m : GoMap) (k : GoString) : GoString := (GoMap.lookup m k).getD []

/-- The assignment `m[k] = v`: an existing entry is overwritten, a new key is added. -/
def GoMap.set : GoMap → GoString → GoString → GoMap
  | [], k, v => [(k, v)]
  | (k1, v1) :: m, k, v => if k1 = k then (k1, v) :: m else (k1, v1) :: GoMap.set m k v

/-- The decoded `checkoutSessionCompletedEvent`: `type`, `data.object.payment_status`
and `data.object.metadata`. -/
structure Event where
  type : GoString
  paymentStatus : GoString
  metadata : GoMap
  deriving DecidableEq

/-- The decoder `json.Unmarshal(body, &ev)`, kept abstract; `none` is a decoding error. -/
abbrev JsonDecoder := GoString → Option Event

/-- What the handler reads of the `*http.Request`: the method, the result of
`io.ReadAll(r.Body)` (`none` when reading fails) and the `Stripe-Signature` header
(empty when absent). -/
structure Request where
  method : GoString
  body : Option GoString
  stripeSignature : GoString

/-- The callback type `FulfillFunc` over a store `σ`: the returned option is the error
(`none` for `nil`), the second component the store after the call. -/
abbrev FulfillFunc (σ : Type) := Int → σ → Option GoString × σ

/-- What one run of the handler does: the status written with `w.WriteHeader`, the
arguments of its calls of `fulfill` in order, and the store afterwards. -/
structure Response (σ : Type) where
  status : Nat
  fulfillCalls : List Int
  store : σ

/-- Model of the handler returned by `WebhookHandler(c, fulfill)`. -/
def WebhookHandler {σ : Type} (hmacSHA256 : Hmac) (jsonUnmarshal : JsonDecoder)
    (c : Client) (fulfill : FulfillFunc σ) (nowUnixNano : Nat) (r : Request) (s : σ) :
    Response σ :=
  if r.method ≠ "POST".toList then ⟨405, [], s⟩
  else
    match r.body with
    | none => ⟨400, [], s⟩
    | some body =>
      match VerifyWebhookSignature hmacSHA256 nowUnixNano c body r.stripeSignature with
      | some _ => ⟨401, [], s⟩
      | none =>
        match jsonUnmarshal body with
        | none => ⟨400, [], s⟩
        | some ev =>
          if ev.type ≠ "checkout.session.completed".toList then ⟨200, [], s⟩
          else if ev.paymentStatus ≠ "paid".toList then ⟨200, [], s⟩
          else
            match GoMap.lookup ev.metadata "purchase_id".toList with
            | none => ⟨400, [], s⟩
            | some purchaseIDStr =>
              if purchaseIDStr = [] then ⟨400, [], s⟩
              else
                match ParseInt purchaseIDStr with
                | (_, some _) => ⟨400, [], s⟩
                | (purchaseID, none) =>
                  match fulfill purchaseID s with
                  | (some _, s1) => ⟨500, [purchaseID], s1⟩
                  | (none, s1) => ⟨200, [purchaseID], s1⟩

/-! ## The purchase store behind the fulfilment callback -/

/-- Status of a purchase record. -/
inductive PurchaseStatus
  | pending
  | fulfilled
  | failed
  deriving DecidableEq, Repr

/-- The purchase store: the status of each purchase identifier, and the fulfilment
side effects (provisioning) performed so far, by purchase identifier. -/
structure Store where
  status : Int → Option PurchaseStatus
  provisioned : List Int

/-- Modelled from the spec: the fulfilment callback passed to `WebhookHandler` (the
payment service is not among the sources).  It is "a conditional update from
Pending→Fulfilled that no-ops if already Fulfilled": a pending purchase becomes
fulfilled and is provisioned once, a fulfilled one is left alone and reported as
success, and an unknown or failed purchase is an error that changes nothing. -/
def fulfillPurchase : FulfillFunc Store := fun purchaseID st =>
  match st.status purchaseID with
  | some .pending =>
    (none, ⟨fun i => if i = purchaseID then some .fulfilled else st.status i,
            st.provisioned ++ [purchaseID]⟩)
  | some .fulfilled => (none, st)
  | some .failed => (some "purchase is not pending".toList, st)
  | none => (some "purchase not found".toList, st)

/-! ## `internal/handler/callback_type.go` -/

/-- The constant `CallbackBuy`. -/
def CallbackBuy : GoString := "buy".toList
/-- The constant `CallbackSell`. -/
def CallbackSell : GoString := "sell".toList
/-- The constant `CallbackDirect`. -/
def CallbackDirect : GoString := "direct".toList
/-- The constant `CallbackStart`. -/
def CallbackStart : GoString := "start".toList
/-- The constant `CallbackConnect`. -/
def CallbackConnect : GoString := "connect".toList
/-- The constant `CallbackPayment`. -/
def CallbackPayment : GoString := "payment".toList
/-- The constant `CallbackTrial`. -/
def CallbackTrial : GoString := "trial".toList
/-- The constant `CallbackActivateTrial`. -/
def CallbackActivateTrial : GoString := "activate_trial".toList
/-- The constant `CallbackReferral`. -/
def CallbackReferral : GoString := "referral".toList

/-- The closed set of callback actions declared in `callback_type.go`. -/
def callbackActions : List GoString :=
  [CallbackBuy, CallbackSell, CallbackDirect, CallbackStart, CallbackConnect,
   CallbackPayment, CallbackTrial, CallbackActivateTrial, CallbackReferral]

/-! ## `internal/handler/payment_handlers.go` -/

/-- The body of the loop of `parseCallbackData`: `kv := strings.SplitN(param, "=", 2)`
and `result[kv[0]] = kv[1]` when `len(kv) == 2`. -/
def addParam (result : GoMap) (param : GoString) : GoMap :=
  match SplitN param '=' 2 with
  | [k, v] => GoMap.set result k v
  | _ => result

/-- Model of `parseCallbackData`. -/
def parseCallbackData (data : GoString) : GoMap :=
  let parts := Split data '?'
  if parts.length < 2 then []
  else (Split (parts.getD 1 []) '&').foldl addParam []

/-- The values the handlers read from package `config` (not among the sources): the
four plan prices, the three price tables and the feature switches. -/
structure Config where
  price1 : Int
  price3 : Int
  price6 : Int
  price12 : Int
  price : Int → Int
  starsPrice : Int → Int
  stripePrice : Int → Int
  isStripeEnabled : Bool
  isCryptoPayEnabled : Bool
  isTelegramStarsEnabled : Bool
  requirePaidPurchaseForStars : Bool

/-- The string constants `database.InvoiceTypeTelegram`, `database.InvoiceTypeStripe`
and `database.InvoiceTypeCrypto` (package `database` is not among the sources). -/
structure InvoiceTypes where
  telegram : GoString
  stripe : GoString
  crypto : GoString

/-- A `database.Customer`, of which the handlers read the identifier. -/
structure Customer where
  id : Int
  deriving DecidableEq, Repr

/-- A `database.Purchase`, of which the handlers only test the presence. -/
structure Purchase where
  id : Int
  deriving DecidableEq, Repr

/-- A `models.InlineKeyboardButton`: label, callback data and URL. -/
structure Button where
  text : GoString
  callbackData : GoString
  url : GoString
  deriving DecidableEq, Repr

/-- An inline keyboard: rows of buttons. -/
abbrev Keyboard := List (List Button)

/-- What the payment handlers read of a callback `*models.Update`. -/
structure CallbackUpdate where
  chatID : Int
  messageID : Int
  data : GoString
  username : GoString
  languageCode : GoString

/-- The calls a handler makes on its collaborators, with their arguments. -/
inductive Call
  | findByTelegramId (chatID : Int)
  | createPurchase (username : GoString) (price : Int) (month : Int) (customer : Customer)
      (invoiceType : GoString)
  | editMessageReplyMarkup (chatID : Int) (messageID : Int) (keyboard : Keyboard)
  | cacheSet (purchaseID : Int) (messageID : Int)
  | findSuccessfulPaidPurchaseByCustomer (customerID : Int)
  | editMessageText (chatID : Int) (messageID : Int) (text : GoString) (keyboard : Keyboard)
  | processPurchaseById (username : GoString) (purchaseID : Int)
  deriving DecidableEq, Repr

/-- The collaborators of `Handler` and the bot, over a world state `σ`: each call
returns its result (`Except.error` for a non-nil `err`) and the world afterwards.
`createPurchase` receives the user name carried by the context, the price (the `int`
that the code converts with `float64`), the month, the customer and the invoice type,
and returns the payment URL and the purchase identifier; `editMessageReplyMarkup`
returns the identifier of the edited message.  `findSuccessfulPaidPurchaseByCustomer`
is the lookup of a successful paid purchase by customer identifier, `editMessageText`
takes chat, message, text and keyboard, and `processPurchaseById` receives the user
name carried by the context and the purchase identifier. -/
structure Handler (σ : Type) where
  findByTelegramId : Int → σ → Except GoString (Option Customer) × σ
  createPurchase : GoString → Int → Int → Customer → GoString → σ →
    Except GoString (GoString × Int) × σ
  getText : GoString → GoString → GoString
  editMessageReplyMarkup : Int → Int → Keyboard → σ → Except GoString Int × σ
  cacheSet : Int → Int → σ → σ
  findSuccessfulPaidPurchaseByCustomer : Int → σ → Except GoString (Option Purchase) × σ
  editMessageText : Int → Int → GoString → Keyboard → σ → Except GoString Int × σ
  processPurchaseById : GoString → Int → σ → Except GoString Unit × σ

/-- Model of `hasDirectPaymentMethods`. -/
def hasDirectPaymentMethods (cfg : Config) : Bool :=
  cfg.isStripeEnabled || cfg.isCryptoPayEnabled

/-- Model of `fmt.Sprintf("%s?month=%d&amount=%d", action, month, price)`. -/
def monthAmountToken (action : GoString) (month price : Int) : GoString :=
  action ++ "?month=".toList ++ FormatInt month ++ "&amount=".toList ++ FormatInt price

/-- The price switch of `PaymentCallbackHandler`. -/
def priceFor (cfg : Config) (it : InvoiceTypes) (invoiceType : GoString) (month : Int) : Int :=
  if invoiceType = it.telegram then cfg.starsPrice month
  else if invoiceType = it.stripe then cfg.stripePrice month
  else cfg.price month

/-- The back target computed by `PaymentCallbackHandler`. -/
def backCallback (cfg : Config) (it : InvoiceTypes) (invoiceType : GoString)
    (month price : Int) : GoString :=
  if invoiceType ≠ it.telegram ∧ hasDirectPaymentMethods cfg = true ∧
      cfg.isTelegramStarsEnabled = true then
    monthAmountToken CallbackDirect month price
  else monthAmountToken CallbackSell month price

/-- Model of `PaymentCallbackHandler`: the calls made on the collaborators, in order,
and the world afterwards.  Every `return` of the Go function ends the run. -/
def PaymentCallbackHandler {σ : Type} (cfg : Config) (it : InvoiceTypes) (h : Handler σ)
    (update : CallbackUpdate) (w : σ) : List Call × σ :=
  let callbackQuery := parseCallbackData update.data
  match Atoi (GoMap.get callbackQuery "month".toList) with
  | (_, some _) => ([], w)
  | (month, none) =>
    let invoiceType := GoMap.get callbackQuery "invoiceType".toList
    let price := priceFor cfg it invoiceType month
    match h.findByTelegramId update.chatID w with
    | (.error _, w1) => ([.findByTelegramId update.chatID], w1)
    | (.ok none, w1) => ([.findByTelegramId update.chatID], w1)
    | (.ok (some customer), w1) =>
      match h.createPurchase update.username price month customer invoiceType w1 with
      | (.error _, w2) =>
        ([.findByTelegramId update.chatID,
          .createPurchase update.username price month customer invoiceType], w2)
      | (.ok (paymentURL, purchaseID), w2) =>
        let keyboard : Keyboard :=
          [[⟨h.getText update.languageCode "pay_button".toList, [], paymentURL⟩,
            ⟨h.getText update.languageCode "back_button".toList,
              backCallback cfg it invoiceType month price, []⟩]]
        match h.editMessageReplyMarkup update.chatID update.messageID keyboard w2 with
        | (.error _, w3) =>
          ([.findByTelegramId update.chatID,
            .createPurchase update.username price month customer invoiceType,
            .editMessageReplyMarkup update.chatID update.messageID keyboard], w3)
        | (.ok messageID, w3) =>
          ([.findByTelegramId update.chatID,
            .createPurchase update.username price month customer invoiceType,
            .editMessageReplyMarkup update.chatID update.messageID keyboard,
            .cacheSet purchaseID messageID], h.cacheSet purchaseID messageID w3)

/-- What `BuyCallbackHandler` builds: one button per plan whose price is greater than
zero, in the order 1, 3, 6, 12 months, each with the token
`fmt.Sprintf("%s?month=%d&amount=%d", CallbackSell, m, price)`. -/
def priceButtons {σ : Type} (cfg : Config) (h : Handler σ) (langCode : GoString) :
    List Button :=
  let b0 : List Button := []
  let b1 := if cfg.price1 > 0 then
      b0 ++ [⟨h.getText langCode "month_1".toList, monthAmountToken CallbackSell 1 cfg.price1, []⟩]
    else b0
  let b3 := if cfg.price3 > 0 then
      b1 ++ [⟨h.getText langCode "month_3".toList, monthAmountToken CallbackSell 3 cfg.price3, []⟩]
    else b1
  let b6 := if cfg.price6 > 0 then
      b3 ++ [⟨h.getText langCode "month_6".toList, monthAmountToken CallbackSell 6 cfg.price6, []⟩]
    else b3
  if cfg.price12 > 0 then
    b6 ++ [⟨h.getText langCode "month_12".toList,
      monthAmountToken CallbackSell 12 cfg.price12, []⟩]
  else b6

/-- The keyboard of `BuyCallbackHandler`: the plan buttons in two rows of two when
there are four of them, in one row when there are fewer, none when there is none, and
a last row with the back button, whose callback data is `CallbackStart`. -/
def buyKeyboard {σ : Type} (cfg : Config) (h : Handler σ) (langCode : GoString) : Keyboard :=
  let buttons := priceButtons cfg h langCode
  let keyboard : Keyboard :=
    if buttons.length = 4 then [buttons.take 2, buttons.drop 2]
    else if buttons.length > 0 then [buttons]
    else []
  keyboard ++ [[⟨h.getText langCode "back_button".toList, CallbackStart, []⟩]]

/-- Model of `BuyCallbackHandler`: one `EditMessageText` with the pricing text and the
keyboard; its error is only logged. -/
def BuyCallbackHandler {σ : Type} (cfg : Config) (h : Handler σ) (update : CallbackUpdate)
    (w : σ) : List Call × σ :=
  let keyboard := buyKeyboard cfg h update.languageCode
  let text := h.getText update.languageCode "pricing_info".toList
  ([.editMessageText update.chatID update.messageID text keyboard],
    (h.editMessageText update.chatID update.messageID text keyboard w).2)

/-- Model of `shouldShowStarsButton`: the answer, the lookups made, and the world
afterwards. -/
def shouldShowStarsButton {σ : Type} (cfg : Config) (h : Handler σ) (chatID : Int) (w : σ) :
    Bool × List Call × σ :=
  if ¬ cfg.isTelegramStarsEnabled then (false, [], w)
  else if ¬ cfg.requirePaidPurchaseForStars then (true, [], w)
  else
    match h.findByTelegramId chatID w with
    | (.error _, w1) => (false, [.findByTelegramId chatID], w1)
    | (.ok none, w1) => (false, [.findByTelegramId chatID], w1)
    | (.ok (some customer), w1) =>
      match h.findSuccessfulPaidPurchaseByCustomer customer.id w1 with
      | (.error _, w2) =>
        (false, [.findByTelegramId chatID,
          .findSuccessfulPaidPurchaseByCustomer customer.id], w2)
      | (.ok paidPurchase, w2) =>
        (paidPurchase.isSome, [.findByTelegramId chatID,
          .findSuccessfulPaidPurchaseByCustomer customer.id], w2)

/-- Model of `shouldShowPaymentMethodChoice`. -/
def shouldShowPaymentMethodChoice {σ : Type} (cfg : Config) (h : Handler σ) (chatID : Int)
    (w : σ) : Bool × List Call × σ :=
  if ¬ cfg.isTelegramStarsEnabled ∨ ¬ hasDirectPaymentMethods cfg then (false, [], w)
  else shouldShowStarsButton cfg h chatID w

/-- Model of `fmt.Sprintf("%s?month=%s&invoiceType=%s&amount=%s", CallbackPayment, month,
invoiceType, amount)`. -/
def paymentToken (month invoiceType amount : GoString) : GoString :=
  CallbackPayment ++ "?month=".toList ++ month ++ "&invoiceType=".toList ++ invoiceType ++
    "&amount=".toList ++ amount

/-- Model of `fmt.Sprintf("%s?month=%s&amount=%s", action, month, amount)`. -/
def monthAmountStringToken (action month amount : GoString) : GoString :=
  action ++ "?month=".toList ++ month ++ "&amount=".toList ++ amount

/-- Model of `appendPaymentMethodButtons`: the keyboard with the rows of the enabled
methods appended (crypto, card, Stars), the lookups made and the world afterwards. -/
def appendPaymentMethodButtons {σ : Type} (cfg : Config) (it : InvoiceTypes) (h : Handler σ)
    (keyboard : Keyboard) (langCode month amount : GoString) (chatID : Int) (w : σ) :
    Keyboard × List Call × σ :=
  let k1 := if cfg.isCryptoPayEnabled then
      keyboard ++ [[⟨h.getText langCode "crypto_button".toList,
        paymentToken month it.crypto amount, []⟩]]
    else keyboard
  let k2 := if cfg.isStripeEnabled then
      k1 ++ [[⟨h.getText langCode "stripe_button".toList,
        paymentToken month it.stripe amount, []⟩]]
    else k1
  if cfg.isTelegramStarsEnabled then
    match shouldShowStarsButton cfg h chatID w with
    | (true, calls, w1) =>
      (k2 ++ [[⟨h.getText langCode "stars_button".toList,
        paymentToken month it.telegram amount, []⟩]], calls, w1)
    | (false, calls, w1) => (k2, calls, w1)
  else (k2, [], w)

/-- Model of `SellCallbackHandler`: the lookups made and the final
`EditMessageReplyMarkup`, whose error is only logged. -/
def SellCallbackHandler {σ : Type} (cfg : Config) (it : InvoiceTypes) (h : Handler σ)
    (update : CallbackUpdate) (w : σ) : List Call × σ :=
  let callbackQuery := parseCallbackData update.data
  let langCode := update.languageCode
  let month := GoMap.get callbackQuery "month".toList
  let amount := GoMap.get callbackQuery "amount".toList
  match shouldShowPaymentMethodChoice cfg h update.chatID w with
  | (true, calls1, w1) =>
    match shouldShowStarsButton cfg h update.chatID w1 with
    | (shouldShowStars, calls2, w2) =>
      let k0 : Keyboard := []
      let k1 := if shouldShowStars then
          k0 ++ [[⟨h.getText langCode "stars_button".toList,
            paymentToken month it.telegram amount, []⟩]]
        else k0
      let k2 := k1 ++ [[⟨h.getText langCode "direct_payment_button".toList,
        monthAmountStringToken CallbackDirect month amount, []⟩]]
      let keyboard := k2 ++ [[⟨h.getText langCode "back_button".toList, CallbackBuy, []⟩]]
      (calls1 ++ calls2 ++ [.editMessageReplyMarkup update.chatID update.messageID keyboard],
        (h.editMessageReplyMarkup update.chatID update.messageID keyboard w2).2)
  | (false, calls1, w1) =>
    match appendPaymentMethodButtons cfg it h [] langCode month amount update.chatID w1 with
    | (k1, calls2, w2) =>
      let keyboard := k1 ++ [[⟨h.getText langCode "back_button".toList, CallbackBuy, []⟩]]
      (calls1 ++ calls2 ++ [.editMessageReplyMarkup update.chatID update.messageID keyboard],
        (h.editMessageReplyMarkup update.chatID update.messageID keyboard w2).2)

/-- Model of `buildDirectPaymentKeyboard`: a row for the card method, then a row for the
crypto method, each when enabled. -/
def buildDirectPaymentKeyboard {σ : Type} (cfg : Config) (it : InvoiceTypes) (h : Handler σ)
    (langCode month amount : GoString) : Keyboard :=
  let rows : Keyboard := []
  let rows1 := if cfg.isStripeEnabled then
      rows ++ [[⟨h.getText langCode "stripe_button".toList,
        paymentToken month it.stripe amount, []⟩]]
    else rows
  if cfg.isCryptoPayEnabled then
    rows1 ++ [[⟨h.getText langCode "crypto_button".toList,
      paymentToken month it.crypto amount, []⟩]]
  else rows1

/-- The keyboard `DirectPaymentCallbackHandler` renders for the token `data`. -/
def directKeyboard {σ : Type} (cfg : Config) (it : InvoiceTypes) (h : Handler σ)
    (langCode data : GoString) : Keyboard :=
  let callbackQuery := parseCallbackData data
  let month := GoMap.get callbackQuery "month".toList
  let amount := GoMap.get callbackQuery "amount".toList
  buildDirectPaymentKeyboard cfg it h langCode month amount ++
    [[⟨h.getText langCode "back_button".toList,
      monthAmountStringToken CallbackSell month amount, []⟩]]

/-- Model of `DirectPaymentCallbackHandler`: one `EditMessageReplyMarkup`, whose error
is only logged. -/
def DirectPaymentCallbackHandler {σ : Type} (cfg : Config) (it : InvoiceTypes)
    (h : Handler σ) (update : CallbackUpdate) (w : σ) : List Call × σ :=
  let keyboard := directKeyboard cfg it h update.languageCode update.data
  ([.editMessageReplyMarkup update.chatID update.messageID keyboard],
    (h.editMessageReplyMarkup update.chatID update.messageID keyboard w).2)

/-- Model of `SuccessPaymentHandler` on the invoice payload of the successful payment:
the payload is split on `&`; fewer than two parts or a first part that `ParseInt`
rejects end the run; otherwise `ProcessPurchaseById` is called with the second part
as user name, its error being only logged. -/
def SuccessPaymentHandler {σ : Type} (h : Handler σ) (invoicePayload : GoString) (w : σ) :
    List Call × σ :=
  let payload := Split invoicePayload '&'
  if payload.length < 2 then ([], w)
  else
    match ParseInt (payload.getD 0 []) with
    | (_, some _) => ([], w)
    | (purchaseID, none) =>
      let username := payload.getD 1 []
      ([.processPurchaseById username purchaseID],
        (h.processPurchaseById username purchaseID w).2)

/-- The keyboard a run rendered: that of its last `EditMessageReplyMarkup` or
`EditMessageText` call. -/
def renderedKeyboard (calls : List Call) : Option Keyboard :=
  calls.reverse.findSome? fun c =>
    match c with
    | .editMessageReplyMarkup _ _ keyboard => some keyboard
    | .editMessageText _ _ _ keyboard => some keyboard
    | _ => none

/-- The customer and purchase lookups are reads: they leave the world as it is. -/
def ReadOnlyLookups {σ : Type} (h : Handler σ) : Prop :=
  (∀ chatID w, (h.findByTelegramId chatID w).2 = w) ∧
  (∀ customerID w, (h.findSuccessfulPaidPurchaseByCustomer customerID w).2 = w)

/-! ## `internal/stripe/client.go` -/

/-- The form `CreateCheckoutSession` posts, a `url.Values` filled with `Set`: mode,
redirect targets, the purchase identifier as metadata, and one line item. -/
def checkoutSessionForm (amountCents month purchaseID : Int) (successURL cancelURL : GoString) :
    GoMap :=
  let form : GoMap := []
  let form := GoMap.set form "mode".toList "payment".toList
  let form := GoMap.set form "success_url".toList successURL
  let form := GoMap.set form "cancel_url".toList cancelURL
  let form := GoMap.set form "metadata[purchase_id]".toList (FormatInt purchaseID)
  let form := GoMap.set form "line_items[0][price_data][currency]".toList "usd".toList
  let form := GoMap.set form "line_items[0][price_data][unit_amount]".toList
    (FormatInt amountCents)
  let form := GoMap.set form "line_items[0][price_data][product_data][name]".toList
    ("VPN Subscription — ".toList ++ FormatInt month ++ " month(s)".toList)
  GoMap.set form "line_items[0][quantity]".toList "1".toList

/-! ## Sample data for the payment handlers -/

/-- A sample configuration: all three channels enabled, no gating, prices in the
three tables proportional to the number of months. -/
def sampleConfig : Config :=
  { price1 := 500, price3 := 1300, price6 := 0, price12 := 4500,
    price := fun m => 500 * m, starsPrice := fun m => 250 * m,
    stripePrice := fun m => 600 * m,
    isStripeEnabled := true, isCryptoPayEnabled := true, isTelegramStarsEnabled := true,
    requirePaidPurchaseForStars := false }

/-- Sample values of the invoice type constants. -/
def sampleInvoiceTypes : InvoiceTypes :=
  ⟨"telegram".toList, "stripe".toList, "crypto".toList⟩

/-- Sample collaborators over a world that counts the calls made: every lookup finds
customer 7, who has no successful paid purchase; every purchase gets identifier 42 and
every edit succeeds. -/
def sampleHandler : Handler Nat :=
  { findByTelegramId := fun _ w => (.ok (some ⟨7⟩), w + 1),
    createPurchase := fun _ _ _ _ _ w => (.ok ("https://pay.example/42".toList, 42), w + 1),
    getText := fun _ key => key,
    editMessageReplyMarkup := fun _ messageID _ w => (.ok messageID, w + 1),
    cacheSet := fun _ _ w => w + 1,
    findSuccessfulPaidPurchaseByCustomer := fun _ w => (.ok none, w),
    editMessageText := fun _ messageID _ _ w => (.ok messageID, w + 1),
    processPurchaseById := fun _ _ w => (.ok (), w + 1) }

/-- Sample collaborators whose lookups are reads: customer 7 is found and has no
successful paid purchase; the world counts the other calls. -/
def menuHandler : Handler Nat :=
  { findByTelegramId := fun _ w => (.ok (some ⟨7⟩), w),
    createPurchase := fun _ _ _ _ _ w => (.ok ("https://pay.example/42".toList, 42), w + 1),
    getText := fun _ key => key,
    editMessageReplyMarkup := fun _ messageID _ w => (.ok messageID, w + 1),
    cacheSet := fun _ _ w => w + 1,
    findSuccessfulPaidPurchaseByCustomer := fun _ w => (.ok none, w),
    editMessageText := fun _ messageID _ _ w => (.ok messageID, w + 1),
    processPurchaseById := fun _ _ w => (.ok (), w + 1) }

/-- The configuration of the scenario: plans at 1, 3 and 12 months (the 6-month price
unset), crypto and Stars enabled, card disabled, Stars not gated. -/
def scenarioConfig : Config :=
  { sampleConfig with isStripeEnabled := false }

/-- A configuration in which Stars is gated behind a paid purchase. -/
def gatedConfig : Config :=
  { sampleConfig with requirePaidPurchaseForStars := true }

/-- A configuration in which Stars is disabled. -/
def noStarsConfig : Config :=
  { sampleConfig with isTelegramStarsEnabled := false }

/-- A configuration with no payment method at all. -/
def noMethodConfig : Config :=
  { sampleConfig with isStripeEnabled := false, isCryptoPayEnabled := false,
                      isTelegramStarsEnabled := false }

/-- A sample callback update carrying the token `data`. -/
def sampleUpdate (data : GoString) : CallbackUpdate :=
  ⟨1001, 55, data, "alice".toList, "en".toList⟩

/-! ## The entries of a signature header, declaratively -/

/-- The text before the first `sep` and the text after it, for a string containing
`sep`. -/
def cutAtFirst (sep : Char) (p : GoString) : Option (GoString × GoString) :=
  if sep ∈ p then some (p.takeWhile (· != sep), (p.dropWhile (· != sep)).drop 1) else none

/-- The `key=value` entries of a signature header: its comma-separated parts, white
space trimmed, that contain `=`, each cut at its first `=`. -/
def headerEntries (hdr : GoString) : List (GoString × GoString) :=
  ((hdr.splitOn ',').map TrimSpace).filterMap (cutAtFirst '=')

/-- The header has a `t=` entry whose value parses (base 10, 64 bits) to a non-zero
integer. -/
def hasTimestampEntry (hdr : GoString) : Bool :=
  (headerEntries hdr).any fun e =>
    decide (e.1 = ['t'] ∧ (ParseInt e.2).2 = none ∧ (ParseInt e.2).1 ≠ 0)

/-- The header has a `v1=` entry with a non-empty value. -/
def hasSignatureEntry (hdr : GoString) : Bool :=
  (headerEntries hdr).any fun e => decide (e.1 = ['v', '1'] ∧ e.2 ≠ [])

/-- What the loop of `VerifyWebhookSignature` can leave in `t` and `v1`, relative to a
list `E` of entries: `t` is zero or the value `ParseInt` returned for a `t=` entry, and
`v1` is empty or the value of a `v1=` entry. -/
def ScanInv (E : List (GoString × GoString)) (st : Int × GoString) : Prop :=
  (st.1 = 0 ∨ ∃ v, (['t'], v) ∈ E ∧ st.1 = (ParseInt v).1) ∧
  (st.2 = [] ∨ (['v', '1'], st.2) ∈ E)

/-! ## The callback token, declaratively -/

/-- One `key=value` pair of the wire format. -/
def encodeParam (kv : GoString × GoString) : GoString := kv.1 ++ '=' :: kv.2

/-- The pairs of a mapping, in order, joined with `&`. -/
def joinParams : GoMap → GoString
  | [] => []
  | kv :: rest =>
    match rest with
    | [] => encodeParam kv
    | _ :: _ => encodeParam kv ++ '&' :: joinParams rest

/-- The wire format of a callback token, `action?k1=v1&k2=v2`, as the handlers build
it with `fmt.Sprintf("%s?month=%d&amount=%d", ...)` and the like. -/
def encodeCallbackData (action : GoString) (params : GoMap) : GoString :=
  action ++ '?' :: joinParams params

/-- The text of a token after its first `?`, up to the next `?` if there is one. -/
def queryText (data : GoString) : GoString :=
  ((data.dropWhile (· != '?')).drop 1).takeWhile (· != '?')

/-- The pairs a token carries: the `&`-separated segments of its query text that
contain `=`, each cut at its first `=`. -/
def segmentPairs (data : GoString) : List (GoString × GoString) :=
  ((queryText data).splitOn '&').filterMap (cutAtFirst '=')

/-- The value a token gives to key `k`: that of the last of its pairs with key `k`. -/
def decodedValue (data k : GoString) : Option GoString :=
  ((segmentPairs data).reverse.find? fun kv => decide (kv.1 = k)).map (·.2)

/-- The keys of a map, in order. -/
def GoMap.keys (m : GoMap) : List GoString := m.map (·.1)

/-! ## Decimal integers, declaratively -/

/-- A decimal digit `0`..`9`. -/
def isDigit (c : Char) : Bool := decide (48 ≤ c.toNat ∧ c.toNat ≤ 57)

/-- The syntax of a decimal integer: an optional sign and one or more digits. -/
def isDecimalInteger (s : GoString) : Bool :=
  match s with
  | [] => false
  | c :: rest =>
    if c = '+' ∨ c = '-' then !rest.isEmpty && rest.all isDigit else s.all isDigit

/-! ## The menus, declaratively -/

/-- The button of a payment method: label key `key`, target `payment` with the invoice
type and the month and amount of the token. -/
def methodButton {σ : Type} (h : Handler σ) (langCode key month invoiceType amount : GoString) :
    Button :=
  ⟨h.getText langCode key,
    "payment?month=".toList ++ month ++ "&invoiceType=".toList ++ invoiceType ++
      "&amount=".toList ++ amount, []⟩

/-- The back button of the `sell` menus: target `buy`. -/
def backToBuyButton {σ : Type} (h : Handler σ) (langCode : GoString) : Button :=
  ⟨h.getText langCode "back_button".toList, "buy".toList, []⟩

/-- The two-step chooser: a Stars button targeting `payment` with the Telegram invoice
type, a direct-payment button targeting `direct`, and a back button targeting `buy`. -/
def chooserKeyboard {σ : Type} (it : InvoiceTypes) (h : Handler σ)
    (langCode month amount : GoString) : Keyboard :=
  [[methodButton h langCode "stars_button".toList month it.telegram amount],
   [⟨h.getText langCode "direct_payment_button".toList,
      "direct?month=".toList ++ month ++ "&amount=".toList ++ amount, []⟩],
   [backToBuyButton h langCode]]

/-- The flat menu: crypto if enabled, card if enabled, Stars if eligible, in that
order, one button a row, then the back button targeting `buy`. -/
def flatKeyboard {σ : Type} (cfg : Config) (it : InvoiceTypes) (h : Handler σ)
    (langCode month amount : GoString) (starsEligible : Bool) : Keyboard :=
  (if cfg.isCryptoPayEnabled then
      [[methodButton h langCode "crypto_button".toList month it.crypto amount]] else []) ++
  (if cfg.isStripeEnabled then
      [[methodButton h langCode "stripe_button".toList month it.stripe amount]] else []) ++
  (if starsEligible then
      [[methodButton h langCode "stars_button".toList month it.telegram amount]] else []) ++
  [[backToBuyButton h langCode]]

/-- The direct menu: card if enabled, crypto if enabled, one button a row, then the
back button targeting `sell` with the month and amount of the token. -/
def directMenu {σ : Type} (cfg : Config) (it : InvoiceTypes) (h : Handler σ)
    (langCode month amount : GoString) : Keyboard :=
  (if cfg.isStripeEnabled then
      [[methodButton h langCode "stripe_button".toList month it.stripe amount]] else []) ++
  (if cfg.isCryptoPayEnabled then
      [[methodButton h langCode "crypto_button".toList month it.crypto amount]] else []) ++
  [[⟨h.getText langCode "back_button".toList,
      "sell?month=".toList ++ month ++ "&amount=".toList ++ amount, []⟩]]

/-- The four plan tiers: months, configured price and label key. -/
def planTiers (cfg : Config) : List (Int × Int × GoString) :=
  [(1, cfg.price1, "month_1".toList), (3, cfg.price3, "month_3".toList),
   (6, cfg.price6, "month_6".toList), (12, cfg.price12, "month_12".toList)]

/-- The plan buttons of the tiers whose price satisfies `offered`, in the order 1, 3,
6, 12, each with callback data `sell?month=<m>&amount=<price of m>`. -/
def planButtons {σ : Type} (offered : Int → Bool) (cfg : Config) (h : Handler σ)
    (langCode : GoString) : List Button :=
  ((planTiers cfg).filter fun tier => offered tier.2.1).map fun tier =>
    ⟨h.getText langCode tier.2.2,
      "sell?month=".toList ++ FormatInt tier.1 ++ "&amount=".toList ++ FormatInt tier.2.1, []⟩

/-- The back target `PaymentCallbackHandler` should render: `direct` when the invoice
type is not the Stars type and Stars is enabled together with a direct method, `sell`
otherwise, with the month and the price. -/
def expectedBackTarget (cfg : Config) (it : InvoiceTypes) (invoiceType : GoString)
    (month price : Int) : GoString :=
  (if invoiceType ≠ it.telegram ∧ cfg.isTelegramStarsEnabled = true ∧
      (cfg.isStripeEnabled = true ∨ cfg.isCryptoPayEnabled = true)
    then "direct".toList else "sell".toList) ++
  "?month=".toList ++ FormatInt month ++ "&amount=".toList ++ FormatInt price

/-! ## Sample data -/

/-- A sample webhook body: a paid `checkout.session.completed` event for purchase 42. -/
def sampleBody : GoString :=
  ("\x7b\"type\":\"checkout.session.completed\",\"data\":\x7b\"object\":" ++
   "\x7b\"payment_status\":\"paid\",\"metadata\":\x7b\"purchase_id\":\"42\"\x7d\x7d\x7d\x7d").toList

/-- The event `sampleBody` decodes to. -/
def sampleEvent : Event :=
  ⟨"checkout.session.completed".toList, "paid".toList,
    [("purchase_id".toList, "42".toList)]⟩

/-- A paid `checkout.session.completed` event whose metadata is empty. -/
def sampleBodyNoId : GoString :=
  ("\x7b\"type\":\"checkout.session.completed\",\"data\":\x7b\"object\":" ++
   "\x7b\"payment_status\":\"paid\",\"metadata\":\x7b\x7d\x7d\x7d\x7d").toList

/-- The event `sampleBodyNoId` decodes to. -/
def sampleEventNoId : Event :=
  ⟨"checkout.session.completed".toList, "paid".toList, []⟩

/-- A `checkout.session.expired` event for purchase 42. -/
def sampleBodyExpired : GoString :=
  ("\x7b\"type\":\"checkout.session.expired\",\"data\":\x7b\"object\":" ++
   "\x7b\"payment_status\":\"unpaid\",\"metadata\":\x7b\"purchase_id\":\"42\"\x7d\x7d\x7d\x7d").toList

/-- The event `sampleBodyExpired` decodes to. -/
def sampleEventExpired : Event :=
  ⟨"checkout.session.expired".toList, "unpaid".toList,
    [("purchase_id".toList, "42".toList)]⟩

/-- A stand-in decoder for evaluating the model: it knows the three sample bodies. -/
def sampleDecoder : JsonDecoder := fun body =>
  if body = sampleBody then some sampleEvent
  else if body = sampleBodyNoId then some sampleEventNoId
  else if body = sampleBodyExpired then some sampleEventExpired
  else none

/-- A sample client. -/
def sampleClient : Client := ⟨"sk_test".toList, "whsec_test".toList⟩

/-- The POST request delivering `body` with a correct signature made at Unix time
1699999900. -/
def signedRequest (body : GoString) : Request :=
  ⟨"POST".toList, some body,
    stripeSignatureHeader 1699999900
      (hexEncode (zeroHmac sampleClient.webhookSecret
        (FormatInt 1699999900 ++ '.' :: body)).bytes)⟩

/-- The request delivering `sampleBody`. -/
def sampleRequest : Request := signedRequest sampleBody

/-- The request delivering `sampleBody` with a header that has no timestamp. -/
def unsignedRequest : Request := ⟨"POST".toList, some sampleBody, "v1=abc".toList⟩

/-- The sample signature header followed by a second `v1=` entry with value `b`. -/
def headerWithSecondSignature (b : GoString) : GoString :=
  stripeSignatureHeader 1699999900
    (hexEncode (zeroHmac sampleClient.webhookSecret
      (FormatInt 1699999900 ++ '.' :: sampleBody)).bytes) ++ ",v1=".toList ++ b

/-- A clock reading one hundred seconds after the sample signature was made. -/
def sampleNow : Nat := 1700000000 * 10 ^ 9

/-- A store in which purchase 42 is pending and nothing has been provisioned. -/
def sampleStore : Store := ⟨fun i => if i = 42 then some .pending else none, []⟩

/-! ## Facts about the string functions -/

theorem indexByte_eq_none {sep : Char} {s : GoString} (h : sep ∉ s) :
    indexByte sep s = none := by
  induction s with
  | nil => rfl
  | cons x xs ih =>
    have hx : x ≠ sep := fun e => h (e ▸ List.mem_cons_self _ _)
    have hxs : sep ∉ xs := fun e => h (List.mem_cons_of_mem _ e)
    simp [indexByte, hx, ih hxs]

theorem indexByte_append {sep : Char} {a : GoString} (b : GoString) (h : sep ∉ a) :
    indexByte sep (a ++ sep :: b) = some a.length := by
  induction a with
  | nil => simp [indexByte]
  | cons x xs ih =>
    have hx : x ≠ sep := fun e => h (e ▸ List.mem_cons_self _ _)
    have hxs : sep ∉ xs := fun e => h (List.mem_cons_of_mem _ e)
    simp [indexByte, hx, ih hxs]

theorem not_mem_of_indexByte_eq_none {sep : Char} {s : GoString}
    (h : indexByte sep s = none) : sep ∉ s := by
  induction s with
  | nil => simp
  | cons x xs ih =>
    simp only [indexByte] at h
    split at h
    · simp at h
    · rename_i hx
      have hq : indexByte sep xs = none := by
        cases hq : indexByte sep xs with
        | none => rfl
        | some m => simp [hq] at h
      intro hm
      rcases List.mem_cons.mp hm with e | e
      · exact hx e.symm
      · exact ih hq e

theorem indexByte_eq_some {sep : Char} {s : GoString} {m : Nat}
    (h : indexByte sep s = some m) :
    s = s.take m ++ sep :: s.drop (m + 1) ∧ sep ∉ s.take m := by
  induction s generalizing m with
  | nil => simp [indexByte] at h
  | cons x xs ih =>
    simp only [indexByte] at h
    split at h
    · rename_i hx
      cases h
      simp [hx]
    · rename_i hx
      cases hq : indexByte sep xs with
      | none => simp [hq] at h
      | some k =>
        simp only [hq, Option.map_some', Option.some.injEq] at h
        subst h
        obtain ⟨h1, h2⟩ := ih hq
        refine ⟨?_, ?_⟩
        · simp only [List.take_succ_cons, List.drop_succ_cons, List.cons_append]
          rw [← h1]
        · simp only [List.take_succ_cons, List.mem_cons, not_or]
          exact ⟨fun e => hx e.symm, h2⟩

theorem count_drop_of_indexByte {sep : Char} {s : GoString} {m : Nat}
    (h : indexByte sep s = some m) :
    countByte sep s = countByte sep (s.drop (m + 1)) + 1 := by
  obtain ⟨h1, h2⟩ := indexByte_eq_some h
  have : countByte sep s = countByte sep (s.take m ++ sep :: s.drop (m + 1)) := by rw [← h1]
  rw [this]
  simp [countByte, List.count_append, List.count_eq_zero_of_not_mem h2]

theorem genSplitLoop_eq_splitOn (sep : Char) (k : Nat) (s : GoString)
    (hk : countByte sep s ≤ k) : genSplitLoop sep k s = s.splitOn sep := by
  induction k generalizing s with
  | zero =>
    have h0 : sep ∉ s := by
      have : s.count sep = 0 := by simpa [countByte] using hk
      exact List.count_eq_zero.mp this
    simp only [genSplitLoop, List.splitOn]
    rw [List.splitOnP_eq_single]
    intro x hx hp
    exact h0 (by rw [← eq_of_beq hp]; exact hx)
  | succ k ih =>
    simp only [genSplitLoop]
    cases hq : indexByte sep s with
    | none =>
      have h0 := not_mem_of_indexByte_eq_none hq
      simp only [List.splitOn]
      rw [List.splitOnP_eq_single]
      intro x hx hp
      exact h0 (by rw [← eq_of_beq hp]; exact hx)
    | some m =>
      obtain ⟨h1, h2⟩ := indexByte_eq_some hq
      have hc := count_drop_of_indexByte hq
      have hrec := ih (s.drop (m + 1)) (by omega)
      simp only
      rw [hrec]
      conv_rhs => rw [h1]
      simp only [List.splitOn]
      rw [List.splitOnP_first]
      · intro x hx hp
        exact h2 (by rw [← eq_of_beq hp]; exact hx)
      · simp

theorem genSplit_all (s : GoString) (sep : Char) :
    genSplit s sep (-1) = genSplitLoop sep (countByte sep s) s := by
  have hlen : countByte sep s ≤ s.length := List.count_le_length _ _
  have h : ¬ (countByte sep s + 1 > s.length + 1) := by omega
  simp [genSplit, h]

theorem genSplit_two (s : GoString) (sep : Char) :
    genSplit s sep 2 = genSplitLoop sep (if s = [] then 0 else 1) s := by
  cases s with
  | nil => rfl
  | cons x xs =>
    have h : ¬ (xs.length + 1 + 1 < 2) := by omega
    simp [genSplit, h]

/-- Model fact: `strings.Split` with a one-byte separator is the declarative `List.splitOn`. -/
theorem Split_eq_splitOn (s : GoString) (sep : Char) : Split s sep = s.splitOn sep := by
  rw [Split, genSplit_all]
  exact genSplitLoop_eq_splitOn sep _ s (le_refl _)

theorem Split_of_not_mem {sep : Char} {s : GoString} (h : sep ∉ s) : Split s sep = [s] := by
  rw [Split_eq_splitOn]
  simp only [List.splitOn]
  rw [List.splitOnP_eq_single]
  intro x hx hp
  exact h (by rw [← eq_of_beq hp]; exact hx)

theorem Split_append {sep : Char} {a : GoString} (b : GoString) (h : sep ∉ a) :
    Split (a ++ sep :: b) sep = a :: Split b sep := by
  rw [Split_eq_splitOn, Split_eq_splitOn]
  simp only [List.splitOn]
  rw [List.splitOnP_first]
  · intro x hx hp
    exact h (by rw [← eq_of_beq hp]; exact hx)
  · simp

theorem SplitN_two_of_not_mem {sep : Char} {s : GoString} (h : sep ∉ s) :
    SplitN s sep 2 = [s] := by
  rw [SplitN, genSplit_two]
  split
  · rfl
  · simp only [genSplitLoop, indexByte_eq_none h]

theorem SplitN_two_append {sep : Char} {a : GoString} (b : GoString) (h : sep ∉ a) :
    SplitN (a ++ sep :: b) sep 2 = [a, b] := by
  rw [SplitN, genSplit_two, if_neg (by simp)]
  simp only [genSplitLoop, indexByte_append b h]
  simp

/-- Model fact: `SplitN(s, sep, 2)` cuts at the first separator, if there is one. -/
theorem SplitN_two_cases (sep : Char) (s : GoString) :
    (sep ∉ s ∧ SplitN s sep 2 = [s]) ∨
    (∃ a b, s = a ++ sep :: b ∧ sep ∉ a ∧ SplitN s sep 2 = [a, b]) := by
  by_cases h : sep ∈ s
  · right
    cases hq : indexByte sep s with
    | none => exact absurd h (not_mem_of_indexByte_eq_none hq)
    | some m =>
      obtain ⟨h1, h2⟩ := indexByte_eq_some hq
      refine ⟨s.take m, s.drop (m + 1), h1, h2, ?_⟩
      conv_lhs => rw [h1]
      exact SplitN_two_append _ h2
  · exact Or.inl ⟨h, SplitN_two_of_not_mem h⟩

theorem dropWhile_eq_self_of_head {p : Char → Bool} {s : GoString}
    (h : ∀ c, s.head? = some c → p c = false) : s.dropWhile p = s := by
  cases s with
  | nil => rfl
  | cons x xs => simp [List.dropWhile, h x rfl]

/-- Model fact: `strings.TrimSpace` leaves a string alone whose first and last characters are not
white space. -/
theorem TrimSpace_eq_self {s : GoString}
    (h1 : ∀ c, s.head? = some c → isSpace c = false)
    (h2 : ∀ c, s.getLast? = some c → isSpace c = false) : TrimSpace s = s := by
  unfold TrimSpace
  rw [dropWhile_eq_self_of_head h1, dropWhile_eq_self_of_head, List.reverse_reverse]
  intro c hc
  apply h2
  simpa [List.head?_reverse] using hc

/-! ## Facts about number parsing and formatting -/

theorem digit_toNat {d : Nat} (h : d < 10) : (Char.ofNat (48 + d)).toNat = 48 + d := by
  interval_cases d <;> rfl

theorem parseUintLoop_digit (d n : Nat) (cs : GoString) (hd : d < 10)
    (hn : n * 10 + d ≤ maxUint64) :
    parseUintLoop (Char.ofNat (48 + d) :: cs) n = parseUintLoop cs (n * 10 + d) := by
  have hmax : maxUint64 = 18446744073709551615 := by decide
  have h1 : ¬ (n ≥ maxUint64 / 10 + 1) := by rw [hmax]; rw [hmax] at hn; omega
  have h2 : (n * 10 + d) % 2 ^ 64 = n * 10 + d := by
    apply Nat.mod_eq_of_lt; rw [hmax] at hn; omega
  have h3 : ¬ (n * 10 + d < n * 10 ∨ n * 10 + d > maxUint64) := by omega
  simp only [parseUintLoop, digit_toNat hd]
  rw [if_pos (by omega), if_neg h1]
  simp only [Nat.add_sub_cancel_left, h2]
  rw [if_neg h3]

theorem parseUintLoop_formatUintAux (fuel n : Nat) (acc : GoString)
    (hf : n < 10 ^ fuel) (hn : n ≤ maxUint64) :
    parseUintLoop (formatUintAux fuel n acc) 0 = parseUintLoop acc n := by
  induction fuel generalizing n acc with
  | zero => simp at hf; subst hf; rfl
  | succ fuel ih =>
    simp only [formatUintAux]
    split
    · rename_i h10
      rw [parseUintLoop_digit n 0 acc h10 (by omega)]
      simp
    · rename_i h10
      have hq : n / 10 < 10 ^ fuel := by
        rw [Nat.div_lt_iff_lt_mul (by decide)]
        calc n < 10 ^ (fuel + 1) := hf
          _ = 10 ^ fuel * 10 := by ring
      rw [ih (n / 10) _ hq (by omega)]
      rw [parseUintLoop_digit (n % 10) (n / 10) acc (Nat.mod_lt _ (by decide)) (by omega)]
      congr 1
      omega

theorem formatUintAux_head (fuel n : Nat) (acc : GoString)
    (hacc : fuel = 0 → ∃ c rest, acc = c :: rest ∧ 48 ≤ c.toNat ∧ c.toNat ≤ 57) :
    ∃ c rest, formatUintAux fuel n acc = c :: rest ∧ 48 ≤ c.toNat ∧ c.toNat ≤ 57 := by
  induction fuel generalizing n acc with
  | zero => exact hacc rfl
  | succ fuel ih =>
    simp only [formatUintAux]
    split
    · rename_i h10
      exact ⟨_, _, rfl, by rw [digit_toNat h10]; omega⟩
    · apply ih
      intro _
      have hm : n % 10 < 10 := Nat.mod_lt _ (by decide)
      exact ⟨_, _, rfl, by rw [digit_toNat hm]; omega⟩

theorem FormatUint_head (n : Nat) :
    ∃ c rest, FormatUint n = c :: rest ∧ 48 ≤ c.toNat ∧ c.toNat ≤ 57 :=
  formatUintAux_head 20 n [] (fun h => absurd h (by decide))

/-- Round trip: `ParseUint` reads back what `FormatUint` writes. -/
theorem ParseUint_FormatUint (n : Nat) (hn : n ≤ maxUint64) :
    ParseUint (FormatUint n) = (n, none) := by
  obtain ⟨c, rest, hc, -⟩ := FormatUint_head n
  have hne : FormatUint n ≠ [] := by rw [hc]; simp
  have hmax : maxUint64 = 18446744073709551615 := by decide
  rw [ParseUint, if_neg hne, FormatUint,
    parseUintLoop_formatUintAux 20 n [] (by rw [hmax] at hn; omega) hn]
  rfl

theorem ParseInt_minus (rest : GoString) (m : Nat) (hP : ParseUint rest = (m, none))
    (hm : m ≤ 2 ^ 63) : ParseInt ('-' :: rest) = (-(m : Int), none) := by
  have h : m ≤ 9223372036854775808 := by omega
  simp [ParseInt, hP, h]

theorem ParseInt_unsigned (c : Char) (rest : GoString) (m : Nat)
    (hplus : c ≠ '+') (hminus : c ≠ '-') (hP : ParseUint (c :: rest) = (m, none))
    (hm : m < 2 ^ 63) : ParseInt (c :: rest) = ((m : Int), none) := by
  have h : m < 9223372036854775808 := by omega
  simp [ParseInt, hP, hplus, hminus, h]

/-- Round trip: `ParseInt` reads back what `FormatInt` writes, over the whole `int64` range. -/
theorem ParseInt_FormatInt (n : Int) (h1 : -(2 ^ 63) ≤ n) (h2 : n < 2 ^ 63) :
    ParseInt (FormatInt n) = (n, none) := by
  have hmax : maxUint64 = 18446744073709551615 := by decide
  by_cases hneg : n < 0
  · have hm : (-n).toNat ≤ maxUint64 := by rw [hmax]; omega
    simp only [FormatInt, if_pos hneg]
    rw [ParseInt_minus _ _ (ParseUint_FormatUint _ hm) (by omega)]
    congr 1
    omega
  · have hm : n.toNat ≤ maxUint64 := by rw [hmax]; omega
    obtain ⟨c, rest, hc, hc1, hc2⟩ := FormatUint_head n.toNat
    have hplus : c ≠ '+' := fun e => by rw [e] at hc1; revert hc1; decide
    have hminus : c ≠ '-' := fun e => by rw [e] at hc1; revert hc1; decide
    have hP := ParseUint_FormatUint _ hm
    simp only [FormatInt, if_neg hneg]
    rw [hc] at hP ⊢
    rw [ParseInt_unsigned c rest _ hplus hminus hP (by omega)]
    congr 1
    omega

theorem FormatInt_ne_nil (n : Int) : FormatInt n ≠ [] := by
  unfold FormatInt
  split
  · simp
  · obtain ⟨c, rest, hc, -⟩ := FormatUint_head n.toNat
    rw [hc]; simp

theorem formatUintAux_chars (fuel n : Nat) (acc : GoString) :
    ∀ c ∈ formatUintAux fuel n acc, c ∈ acc ∨ (48 ≤ c.toNat ∧ c.toNat ≤ 57) := by
  induction fuel generalizing n acc with
  | zero => intro c hc; exact Or.inl hc
  | succ fuel ih =>
    intro c hc
    simp only [formatUintAux] at hc
    split at hc
    · rename_i h10
      rcases List.mem_cons.mp hc with e | e
      · right; rw [e, digit_toNat h10]; omega
      · exact Or.inl e
    · have hm : n % 10 < 10 := Nat.mod_lt _ (by decide)
      rcases ih _ _ c hc with e | e
      · rcases List.mem_cons.mp e with e | e
        · right; rw [e, digit_toNat hm]; omega
        · exact Or.inl e
      · exact Or.inr e

theorem FormatInt_chars (n : Int) :
    ∀ c ∈ FormatInt n, c = '-' ∨ (48 ≤ c.toNat ∧ c.toNat ≤ 57) := by
  intro c hc
  unfold FormatInt at hc
  split at hc
  · rcases List.mem_cons.mp hc with e | e
    · exact Or.inl e
    · rcases formatUintAux_chars 20 _ [] c e with e | e
      · simp at e
      · exact Or.inr e
  · rcases formatUintAux_chars 20 _ [] c hc with e | e
    · simp at e
    · exact Or.inr e

theorem isSpace_digit {c : Char} (h : 48 ≤ c.toNat ∧ c.toNat ≤ 57) : isSpace c = false := by
  simp only [isSpace, Bool.or_eq_false_iff, Bool.and_eq_false_iff, decide_eq_false_iff_not]
  omega

theorem FormatInt_not_space (n : Int) : ∀ c ∈ FormatInt n, isSpace c = false := by
  intro c hc
  rcases FormatInt_chars n c hc with e | e
  · rw [e]; decide
  · exact isSpace_digit e

theorem FormatInt_no_sep (n : Int) {sep : Char} (h1 : sep ≠ '-')
    (h2 : ¬ (48 ≤ sep.toNat ∧ sep.toNat ≤ 57)) : sep ∉ FormatInt n := by
  intro hc
  rcases FormatInt_chars n sep hc with e | e
  · exact h1 e
  · exact h2 e

theorem getLast?_cons_of_ne_nil {a : Char} {l : GoString} (h : l ≠ []) :
    (a :: l).getLast? = l.getLast? := by
  cases l with
  | nil => exact absurd rfl h
  | cons x xs => exact List.getLast?_cons_cons

theorem scanPart_timestamp (st : Int × GoString) (t : Int)
    (h1 : -(2 ^ 63) ≤ t) (h2 : t < 2 ^ 63) :
    scanPart st ('t' :: '=' :: FormatInt t) = (t, st.2) := by
  have htrim : TrimSpace ('t' :: '=' :: FormatInt t) = 't' :: '=' :: FormatInt t := by
    apply TrimSpace_eq_self
    · intro c hc
      simp only [List.head?_cons, Option.some.injEq] at hc
      rw [← hc]; decide
    · intro c hc
      have hmem : c ∈ FormatInt t := by
        have : c ∈ ('t' :: '=' :: FormatInt t).getLast? := hc
        rw [List.getLast?_cons_cons, getLast?_cons_of_ne_nil (FormatInt_ne_nil t)] at this
        exact List.mem_of_mem_getLast? this
      exact FormatInt_not_space t c hmem
  have hsplit : SplitN ('t' :: '=' :: FormatInt t) '=' 2 = [['t'], FormatInt t] :=
    SplitN_two_append (a := ['t']) (FormatInt t) (by decide)
  simp only [scanPart, htrim, hsplit, ParseInt_FormatInt t h1 h2, if_true]

theorem scanPart_signature (st : Int × GoString) (s : GoString)
    (hs : ∀ ch ∈ s, isSpace ch = false) :
    scanPart st ('v' :: '1' :: '=' :: s) = (st.1, s) := by
  have htrim : TrimSpace ('v' :: '1' :: '=' :: s) = 'v' :: '1' :: '=' :: s := by
    apply TrimSpace_eq_self
    · intro c hc
      simp only [List.head?_cons, Option.some.injEq] at hc
      rw [← hc]; decide
    · intro c hc
      cases s with
      | nil =>
        simp at hc
        rw [← hc]; decide
      | cons x xs =>
        have : c ∈ ('v' :: '1' :: '=' :: x :: xs).getLast? := hc
        rw [List.getLast?_cons_cons, List.getLast?_cons_cons, List.getLast?_cons_cons] at this
        exact hs c (List.mem_of_mem_getLast? this)
  have hsplit : SplitN ('v' :: '1' :: '=' :: s) '=' 2 = [['v', '1'], s] :=
    SplitN_two_append (a := ['v', '1']) s (by decide)
  have hne : ¬ (['v', '1'] = ['t']) := by decide
  simp only [scanPart, htrim, hsplit, if_neg hne, if_true]

/-- The loop of `VerifyWebhookSignature` on the header `t=<t>,v1=<s>` leaves `t` and
`s` in the variables `t` and `v1`. -/
theorem scanHeader_stripeSignatureHeader (t : Int) (s : GoString)
    (h1 : -(2 ^ 63) ≤ t) (h2 : t < 2 ^ 63)
    (hs : ∀ ch ∈ s, ch ≠ ',' ∧ isSpace ch = false) :
    scanHeader (stripeSignatureHeader t s) = (t, s) := by
  have hcomma1 : ',' ∉ 't' :: '=' :: FormatInt t := by
    intro h
    rcases List.mem_cons.mp h with e | e
    · revert e; decide
    · rcases List.mem_cons.mp e with e | e
      · revert e; decide
      · exact FormatInt_no_sep t (by decide) (by decide) e
  have hcomma2 : ',' ∉ 'v' :: '1' :: '=' :: s := by
    intro h
    rcases List.mem_cons.mp h with e | e
    · revert e; decide
    · rcases List.mem_cons.mp e with e | e
      · revert e; decide
      · rcases List.mem_cons.mp e with e | e
        · revert e; decide
        · exact (hs _ e).1 rfl
  have hsplit : Split (stripeSignatureHeader t s) ',' =
      ['t' :: '=' :: FormatInt t, 'v' :: '1' :: '=' :: s] := by
    have : stripeSignatureHeader t s =
        ('t' :: '=' :: FormatInt t) ++ ',' :: ('v' :: '1' :: '=' :: s) := by
      simp [stripeSignatureHeader]
    rw [this, Split_append _ hcomma1, Split_of_not_mem hcomma2]
  simp only [scanHeader, hsplit, List.foldl_cons, List.foldl_nil]
  rw [scanPart_timestamp _ t h1 h2, scanPart_signature _ s (fun ch hch => (hs ch hch).2)]

/-! ## Facts about the clock -/

theorem wrapInt64_eq_self {x : Int} (h1 : -(2 ^ 63) ≤ x) (h2 : x < 2 ^ 63) :
    wrapInt64 x = x := by
  unfold wrapInt64
  omega

/-- For a timestamp that `time.Unix` can represent, the age test of
`VerifyWebhookSignature` compares the true age with 300 seconds. -/
theorem timeSince_timeUnix_gt (now : Nat) (t : Int)
    (h1 : -(2 ^ 63) ≤ t + 62135596800) (h2 : t + 62135596800 < 2 ^ 63) :
    timeSince now (timeUnix t) > signatureTolerance ↔
      (now : Int) - t * 10 ^ 9 > 300 * 10 ^ 9 := by
  have hw : wrapInt64 (t + 62135596800) = t + 62135596800 := wrapInt64_eq_self h1 h2
  simp only [timeSince, timeNow, timeUnix, Time.Sub, signatureTolerance, maxDuration,
    minDuration, unixToInternal, hw]
  norm_num
  split_ifs <;> omega

/-- A timestamp beyond the range of `time.Unix` wraps to the distant past and always
fails the age test. -/
theorem timeSince_timeUnix_wrapped (now : Nat) (t : Int)
    (h1 : 2 ^ 63 ≤ t + 62135596800) (h2 : t < 2 ^ 63) :
    timeSince now (timeUnix t) > signatureTolerance := by
  have hw : wrapInt64 (t + 62135596800) = t + 62135596800 - 2 ^ 64 := by
    unfold wrapInt64
    omega
  simp only [timeSince, timeNow, timeUnix, Time.Sub, signatureTolerance, maxDuration,
    minDuration, unixToInternal, hw]
  norm_num
  split_ifs <;> omega

theorem hexEncode_ne_nil (d : Digest) : hexEncode d.bytes ≠ [] := by
  have h := d.size_eq
  cases hb : d.bytes with
  | nil => rw [hb] at h; simp at h
  | cons b bs => simp [hexEncode]

/-! ## Signature verification -/

theorem stripeSignatureHeader_ne_nil (t : Int) (s : GoString) :
    stripeSignatureHeader t s ≠ [] := by
  simp [stripeSignatureHeader]

/-- C1 (amended): for every keyed hash, secret, body, clock reading `now` (nanoseconds
since the Unix epoch), positive timestamp `t` that `time.Unix` can represent
(`t ≤ 2^63 - 1 - 62135596800`) and string `s` without commas or white space, on the
header `t=<t>,v1=<s>` `VerifyWebhookSignature` returns nil if and only if `now - t` is
at most 300 seconds and `s` is the lowercase hex HMAC of `<t>.<body>` under the
secret. -/
theorem VerifyWebhookSignature_accepts_iff (hmacSHA256 : Hmac) (c : Client)
    (body : GoString) (now : Nat) (t : Int) (s : GoString)
    (ht0 : 0 < t) (ht : t ≤ 2 ^ 63 - 1 - 62135596800)
    (hs : ∀ ch ∈ s, ch ≠ ',' ∧ isSpace ch = false) :
    VerifyWebhookSignature hmacSHA256 now c body (stripeSignatureHeader t s) = none ↔
      ((now : Int) - t * 10 ^ 9 ≤ 300 * 10 ^ 9 ∧
        s = hexEncode (hmacSHA256 c.webhookSecret (FormatInt t ++ '.' :: body)).bytes) := by
  have hscan := scanHeader_stripeSignatureHeader t s (by omega) (by omega) hs
  have hage := timeSince_timeUnix_gt now t (by omega) (by omega)
  have ht1 : t ≠ 0 := by omega
  simp only [VerifyWebhookSignature, if_neg (stripeSignatureHeader_ne_nil t s), hscan]
  by_cases hnil : s = []
  · subst hnil
    have hne := hexEncode_ne_nil (hmacSHA256 c.webhookSecret (FormatInt t ++ '.' :: body))
    simp only [true_or, if_true]
    constructor
    · intro h; cases h
    · rintro ⟨-, h⟩; exact absurd h.symm hne
  · rw [if_neg (by simp [hnil, ht1])]
    by_cases hold : timeSince now (timeUnix t) > signatureTolerance
    · rw [if_pos hold]
      have := hage.mp hold
      constructor
      · intro h; cases h
      · rintro ⟨h, -⟩; omega
    · rw [if_neg hold]
      have hfresh : (now : Int) - t * 10 ^ 9 ≤ 300 * 10 ^ 9 := by
        by_contra hc
        exact hold (hage.mpr (by omega))
      by_cases hmac :
          hexEncode (hmacSHA256 c.webhookSecret (FormatInt t ++ '.' :: body)).bytes = s
      · rw [if_neg (by simp [hmac])]
        exact ⟨fun _ => ⟨hfresh, hmac.symm⟩, fun _ => rfl⟩
      · have hmac' : ¬ (s =
            hexEncode (hmacSHA256 c.webhookSecret (FormatInt t ++ '.' :: body)).bytes) :=
          fun e => hmac e.symm
        simp [hmac, hmac']

/-- Whatever the keyed hash, the secret, the body, the clock and the signature, a
timestamp above `2^63 - 1 - 62135596800` is rejected as too old. -/
theorem VerifyWebhookSignature_wrapped_timestamp (hmacSHA256 : Hmac) (c : Client)
    (body : GoString) (now : Nat) (t : Int) (s : GoString)
    (ht : 2 ^ 63 - 1 - 62135596800 < t) (ht2 : t < 2 ^ 63) (hne : s ≠ [])
    (hs : ∀ ch ∈ s, ch ≠ ',' ∧ isSpace ch = false) :
    VerifyWebhookSignature hmacSHA256 now c body (stripeSignatureHeader t s) =
      some .timestampTooOld := by
  have hscan := scanHeader_stripeSignatureHeader t s (by omega) ht2 hs
  have hage := timeSince_timeUnix_wrapped now t (by omega) ht2
  have ht1 : t ≠ 0 := by omega
  simp only [VerifyWebhookSignature, if_neg (stripeSignatureHeader_ne_nil t s), hscan]
  rw [if_neg (by simp [hne, ht1]), if_pos hage]

/-- C1, witness: a correctly signed notification one hundred seconds old. -/
theorem VerifyWebhookSignature_accepts_iff_witness :
    (0 : Int) < 1699999900 ∧ (1699999900 : Int) ≤ 2 ^ 63 - 1 - 62135596800 ∧
    (∀ ch ∈ hexEncode (zeroHmac [] (FormatInt 1699999900 ++ '.' :: "{}".toList)).bytes,
      ch ≠ ',' ∧ isSpace ch = false) ∧
    (VerifyWebhookSignature zeroHmac (1700000000 * 10 ^ 9) ⟨[], []⟩ "{}".toList
      (stripeSignatureHeader 1699999900
        (hexEncode (zeroHmac [] (FormatInt 1699999900 ++ '.' :: "{}".toList)).bytes)) = none ↔
      ((((1700000000 * 10 ^ 9 : Nat) : Int)) - 1699999900 * 10 ^ 9 ≤ 300 * 10 ^ 9 ∧
        hexEncode (zeroHmac [] (FormatInt 1699999900 ++ '.' :: "{}".toList)).bytes =
          hexEncode (zeroHmac (Client.webhookSecret ⟨[], []⟩)
            (FormatInt 1699999900 ++ '.' :: "{}".toList)).bytes)) :=
  ⟨by decide, by decide, by decide,
    VerifyWebhookSignature_accepts_iff zeroHmac ⟨[], []⟩ "{}".toList (1700000000 * 10 ^ 9)
      1699999900 _ (by decide) (by decide) (by decide)⟩

/-- C1, counterexample to the claim as stated: the positive `int64` timestamp
`2^63 - 1` lies in the future of the clock (so its age is below 300 seconds) and the
header carries the correct MAC and neither comma nor white space, yet the notification
is rejected, because `time.Unix` wraps that timestamp to the distant past. -/
theorem VerifyWebhookSignature_rejects_unrepresentable_timestamp :
    (0 : Int) < 9223372036854775807 ∧ (9223372036854775807 : Int) < 2 ^ 63 ∧
    (∀ ch ∈ hexEncode (zeroHmac [] (FormatInt 9223372036854775807 ++ ['.'])).bytes,
      ch ≠ ',' ∧ isSpace ch = false) ∧
    (((1700000000 * 10 ^ 9 : Nat) : Int)) - 9223372036854775807 * 10 ^ 9 ≤ 300 * 10 ^ 9 ∧
    VerifyWebhookSignature zeroHmac (1700000000 * 10 ^ 9) ⟨[], []⟩ []
      (stripeSignatureHeader 9223372036854775807
        (hexEncode (zeroHmac [] (FormatInt 9223372036854775807 ++ ['.'])).bytes)) =
      some .timestampTooOld := by
  refine ⟨by decide, by decide, by decide, by decide, by decide⟩

/-! ## The webhook handler -/

/-- The run of the handler on a verified paid `checkout.session.completed` event
carrying the decimal rendering of `n`: one call of `fulfill`, whose result decides
between 500 and 200. -/
theorem WebhookHandler_paid_session_eq {σ : Type} (hmacSHA256 : Hmac)
    (jsonUnmarshal : JsonDecoder) (c : Client) (fulfill : FulfillFunc σ) (now : Nat)
    (r : Request) (st : σ) (body : GoString) (ev : Event) (n : Int)
    (hm : r.method = "POST".toList) (hb : r.body = some body)
    (hv : VerifyWebhookSignature hmacSHA256 now c body r.stripeSignature = none)
    (hj : jsonUnmarshal body = some ev)
    (ht : ev.type = "checkout.session.completed".toList)
    (hp : ev.paymentStatus = "paid".toList)
    (hid : GoMap.lookup ev.metadata "purchase_id".toList = some (FormatInt n))
    (h1 : -(2 ^ 63) ≤ n) (h2 : n < 2 ^ 63) :
    WebhookHandler hmacSHA256 jsonUnmarshal c fulfill now r st =
      ⟨if (fulfill n st).1 = none then 200 else 500, [n], (fulfill n st).2⟩ := by
  have hP := ParseInt_FormatInt n h1 h2
  have hne := FormatInt_ne_nil n
  simp only [WebhookHandler, hm, hb, hv, hj, ht, hp, hid, hP, hne, ne_eq, not_true_eq_false,
    if_false]
  cases hf : fulfill n st with
  | mk e s1 =>
    cases e with
    | none => simp
    | some msg => simp

/-- C2: a POST notification that passes signature verification and decodes to a paid
`checkout.session.completed` event whose `purchase_id` is the decimal rendering of an
`int64` `n` makes `WebhookHandler` call `fulfill` exactly once, with `n`; the response
is 500 if the callback returns an error and 200 if it returns nil. -/
theorem WebhookHandler_fulfills_paid_session {σ : Type} (hmacSHA256 : Hmac)
    (jsonUnmarshal : JsonDecoder) (c : Client) (fulfill : FulfillFunc σ) (now : Nat)
    (r : Request) (st : σ) (body : GoString) (ev : Event) (n : Int)
    (hm : r.method = "POST".toList) (hb : r.body = some body)
    (hv : VerifyWebhookSignature hmacSHA256 now c body r.stripeSignature = none)
    (hj : jsonUnmarshal body = some ev)
    (ht : ev.type = "checkout.session.completed".toList)
    (hp : ev.paymentStatus = "paid".toList)
    (hid : GoMap.lookup ev.metadata "purchase_id".toList = some (FormatInt n))
    (h1 : -(2 ^ 63) ≤ n) (h2 : n < 2 ^ 63) :
    (WebhookHandler hmacSHA256 jsonUnmarshal c fulfill now r st).fulfillCalls = [n] ∧
    (WebhookHandler hmacSHA256 jsonUnmarshal c fulfill now r st).store = (fulfill n st).2 ∧
    ((fulfill n st).1 ≠ none →
      (WebhookHandler hmacSHA256 jsonUnmarshal c fulfill now r st).status = 500) ∧
    ((fulfill n st).1 = none →
      (WebhookHandler hmacSHA256 jsonUnmarshal c fulfill now r st).status = 200) := by
  rw [WebhookHandler_paid_session_eq hmacSHA256 jsonUnmarshal c fulfill now r st body ev n
    hm hb hv hj ht hp hid h1 h2]
  refine ⟨rfl, rfl, ?_, ?_⟩
  · intro h; simp [h]
  · intro h; simp [h]

/-- C2, witness: `purchase_id` "42" with a succeeding callback gives one call
`fulfill(42)` and the response 200. -/
theorem WebhookHandler_fulfills_paid_session_witness :
    (WebhookHandler zeroHmac sampleDecoder sampleClient fulfillPurchase sampleNow
        sampleRequest sampleStore).fulfillCalls = [42] ∧
    (WebhookHandler zeroHmac sampleDecoder sampleClient fulfillPurchase sampleNow
        sampleRequest sampleStore).status = 200 :=
  have h := WebhookHandler_fulfills_paid_session zeroHmac sampleDecoder sampleClient
    fulfillPurchase sampleNow sampleRequest sampleStore sampleBody sampleEvent 42
    (by decide) (by decide) (by decide) (by decide) (by decide) (by decide) (by decide)
    (by decide) (by decide)
  ⟨h.1, h.2.2.2 (by decide)⟩

theorem fulfillPurchase_pending (st : Store) (n : Int) (h : st.status n = some .pending) :
    fulfillPurchase n st =
      (none, ⟨fun i => if i = n then some .fulfilled else st.status i,
        st.provisioned ++ [n]⟩) := by
  simp [fulfillPurchase, h]

theorem fulfillPurchase_fulfilled (st : Store) (n : Int)
    (h : st.status n = some .fulfilled) : fulfillPurchase n st = (none, st) := by
  simp [fulfillPurchase, h]

/-- C3: over the purchase store in which the callback is the conditional
Pending→Fulfilled update, delivering the same valid completion notification twice
(both deliveries within the signature window) fulfils a pending purchase exactly once:
the first delivery answers 200, marks the purchase fulfilled and provisions it once;
the second answers 200 and leaves the store, hence the fulfilled status and the list
of provisioning side effects, unchanged. -/
theorem WebhookHandler_redelivery_idempotent (hmacSHA256 : Hmac)
    (jsonUnmarshal : JsonDecoder) (c : Client) (now1 now2 : Nat)
    (r : Request) (st : Store) (body : GoString) (ev : Event) (n : Int)
    (hm : r.method = "POST".toList) (hb : r.body = some body)
    (hv1 : VerifyWebhookSignature hmacSHA256 now1 c body r.stripeSignature = none)
    (hv2 : VerifyWebhookSignature hmacSHA256 now2 c body r.stripeSignature = none)
    (hj : jsonUnmarshal body = some ev)
    (ht : ev.type = "checkout.session.completed".toList)
    (hp : ev.paymentStatus = "paid".toList)
    (hid : GoMap.lookup ev.metadata "purchase_id".toList = some (FormatInt n))
    (h1 : -(2 ^ 63) ≤ n) (h2 : n < 2 ^ 63)
    (hpend : st.status n = some .pending) :
    (WebhookHandler hmacSHA256 jsonUnmarshal c fulfillPurchase now1 r st).status = 200 ∧
    (WebhookHandler hmacSHA256 jsonUnmarshal c fulfillPurchase now1 r st).store.status n =
      some .fulfilled ∧
    (WebhookHandler hmacSHA256 jsonUnmarshal c fulfillPurchase now1 r st).store.provisioned =
      st.provisioned ++ [n] ∧
    (WebhookHandler hmacSHA256 jsonUnmarshal c fulfillPurchase now2 r
      (WebhookHandler hmacSHA256 jsonUnmarshal c fulfillPurchase now1 r st).store).status =
      200 ∧
    (WebhookHandler hmacSHA256 jsonUnmarshal c fulfillPurchase now2 r
      (WebhookHandler hmacSHA256 jsonUnmarshal c fulfillPurchase now1 r st).store).store =
      (WebhookHandler hmacSHA256 jsonUnmarshal c fulfillPurchase now1 r st).store ∧
    (WebhookHandler hmacSHA256 jsonUnmarshal c fulfillPurchase now2 r
      (WebhookHandler hmacSHA256 jsonUnmarshal c fulfillPurchase now1 r
        st).store).store.provisioned = st.provisioned ++ [n] := by
  have e1 := WebhookHandler_paid_session_eq hmacSHA256 jsonUnmarshal c fulfillPurchase now1
    r st body ev n hm hb hv1 hj ht hp hid h1 h2
  rw [fulfillPurchase_pending st n hpend] at e1
  have hful : (⟨fun i => if i = n then some PurchaseStatus.fulfilled else st.status i,
      st.provisioned ++ [n]⟩ : Store).status n = some .fulfilled := by simp
  have e2 := WebhookHandler_paid_session_eq hmacSHA256 jsonUnmarshal c fulfillPurchase now2
    r ⟨fun i => if i = n then some PurchaseStatus.fulfilled else st.status i,
      st.provisioned ++ [n]⟩ body ev n hm hb hv2 hj ht hp hid h1 h2
  rw [fulfillPurchase_fulfilled _ n hful] at e2
  rw [e1]
  simp only [if_true]
  rw [e2]
  simp

/-- C3, witness: the sample notification delivered at 100 and again at 160 seconds of
age to a store in which purchase 42 is pending: both answers are 200 and purchase 42
is provisioned once. -/
theorem WebhookHandler_redelivery_idempotent_witness :
    sampleStore.status 42 = some .pending ∧
    (WebhookHandler zeroHmac sampleDecoder sampleClient fulfillPurchase sampleNow
      sampleRequest sampleStore).status = 200 ∧
    (WebhookHandler zeroHmac sampleDecoder sampleClient fulfillPurchase
      (sampleNow + 60 * 10 ^ 9) sampleRequest
      (WebhookHandler zeroHmac sampleDecoder sampleClient fulfillPurchase sampleNow
        sampleRequest sampleStore).store).status = 200 ∧
    (WebhookHandler zeroHmac sampleDecoder sampleClient fulfillPurchase
      (sampleNow + 60 * 10 ^ 9) sampleRequest
      (WebhookHandler zeroHmac sampleDecoder sampleClient fulfillPurchase sampleNow
        sampleRequest sampleStore).store).store.provisioned = [42] :=
  have h := WebhookHandler_redelivery_idempotent zeroHmac sampleDecoder sampleClient
    sampleNow (sampleNow + 60 * 10 ^ 9) sampleRequest sampleStore sampleBody sampleEvent 42
    (by decide) (by decide) (by decide) (by decide) (by decide) (by decide) (by decide)
    (by decide) (by decide) (by decide) (by decide)
  ⟨by decide, h.1, h.2.2.2.1, h.2.2.2.2.2⟩

/-- C5: a verified POST notification carrying a paid `checkout.session.completed`
event whose metadata has no `purchase_id`, an empty one, or one that `ParseInt`
(base 10, 64 bits) rejects, is answered 400 without any call of `fulfill`. -/
theorem WebhookHandler_rejects_bad_purchase_id {σ : Type} (hmacSHA256 : Hmac)
    (jsonUnmarshal : JsonDecoder) (c : Client) (fulfill : FulfillFunc σ) (now : Nat)
    (r : Request) (st : σ) (body : GoString) (ev : Event)
    (hm : r.method = "POST".toList) (hb : r.body = some body)
    (hv : VerifyWebhookSignature hmacSHA256 now c body r.stripeSignature = none)
    (hj : jsonUnmarshal body = some ev)
    (ht : ev.type = "checkout.session.completed".toList)
    (hp : ev.paymentStatus = "paid".toList)
    (hid : GoMap.lookup ev.metadata "purchase_id".toList = none ∨
      GoMap.lookup ev.metadata "purchase_id".toList = some [] ∨
      ∃ v, GoMap.lookup ev.metadata "purchase_id".toList = some v ∧ (ParseInt v).2 ≠ none) :
    WebhookHandler hmacSHA256 jsonUnmarshal c fulfill now r st = ⟨400, [], st⟩ := by
  rcases hid with h | h | ⟨v, h, hv'⟩
  · simp only [WebhookHandler, hm, hb, hv, hj, ht, hp, h, ne_eq, not_true_eq_false, if_false]
  · simp only [WebhookHandler, hm, hb, hv, hj, ht, hp, h, ne_eq, not_true_eq_false, if_false,
      if_true]
  · simp only [WebhookHandler, hm, hb, hv, hj, ht, hp, h, ne_eq, not_true_eq_false, if_false]
    split
    · rfl
    · cases hq : ParseInt v with
      | mk i e =>
        rw [hq] at hv'
        cases e with
        | none => exact absurd rfl hv'
        | some e => rfl

/-- C6: a verified POST notification whose event is not `checkout.session.completed`,
or is one whose payment status is not `paid`, is answered 200 without any call of
`fulfill`, whatever its metadata. -/
theorem WebhookHandler_acknowledges_other_events {σ : Type} (hmacSHA256 : Hmac)
    (jsonUnmarshal : JsonDecoder) (c : Client) (fulfill : FulfillFunc σ) (now : Nat)
    (r : Request) (st : σ) (body : GoString) (ev : Event)
    (hm : r.method = "POST".toList) (hb : r.body = some body)
    (hv : VerifyWebhookSignature hmacSHA256 now c body r.stripeSignature = none)
    (hj : jsonUnmarshal body = some ev)
    (hev : ev.type ≠ "checkout.session.completed".toList ∨
      (ev.type = "checkout.session.completed".toList ∧ ev.paymentStatus ≠ "paid".toList)) :
    WebhookHandler hmacSHA256 jsonUnmarshal c fulfill now r st = ⟨200, [], st⟩ := by
  rcases hev with h | ⟨h1, h2⟩
  · simp only [WebhookHandler, hm, hb, hv, hj, h, ne_eq, not_true_eq_false, if_false,
      not_false_eq_true, if_true]
  · simp only [WebhookHandler, hm, hb, hv, hj, h1, h2, ne_eq, not_true_eq_false, if_false,
      not_false_eq_true, if_true]

/-- C5, witness: a signed paid completion event with empty metadata. -/
theorem WebhookHandler_rejects_bad_purchase_id_witness :
    WebhookHandler zeroHmac sampleDecoder sampleClient fulfillPurchase sampleNow
      (signedRequest sampleBodyNoId) sampleStore = ⟨400, [], sampleStore⟩ :=
  WebhookHandler_rejects_bad_purchase_id zeroHmac sampleDecoder sampleClient fulfillPurchase
    sampleNow (signedRequest sampleBodyNoId) sampleStore sampleBodyNoId sampleEventNoId
    (by decide) (by decide) (by decide) (by decide) (by decide) (by decide)
    (Or.inl (by decide))

/-- C6, witness: a signed `checkout.session.expired` event carrying a purchase id. -/
theorem WebhookHandler_acknowledges_other_events_witness :
    WebhookHandler zeroHmac sampleDecoder sampleClient fulfillPurchase sampleNow
      (signedRequest sampleBodyExpired) sampleStore = ⟨200, [], sampleStore⟩ :=
  WebhookHandler_acknowledges_other_events zeroHmac sampleDecoder sampleClient
    fulfillPurchase sampleNow (signedRequest sampleBodyExpired) sampleStore
    sampleBodyExpired sampleEventExpired
    (by decide) (by decide) (by decide) (by decide) (Or.inl (by decide))

/-! ## Malformed signature headers -/

theorem takeWhile_bne_append {sep : Char} {a : GoString} (b : GoString) (h : sep ∉ a) :
    (a ++ sep :: b).takeWhile (· != sep) = a := by
  induction a with
  | nil => simp [List.takeWhile]
  | cons x xs ih =>
    have hx : x ≠ sep := fun e => h (e ▸ List.mem_cons_self _ _)
    have hxs : sep ∉ xs := fun e => h (List.mem_cons_of_mem _ e)
    have hb : (x != sep) = true := bne_iff_ne.mpr hx
    rw [List.cons_append, List.takeWhile_cons, hb, if_pos rfl, ih hxs]

theorem dropWhile_bne_append {sep : Char} {a : GoString} (b : GoString) (h : sep ∉ a) :
    (a ++ sep :: b).dropWhile (· != sep) = sep :: b := by
  induction a with
  | nil => simp [List.dropWhile]
  | cons x xs ih =>
    have hx : x ≠ sep := fun e => h (e ▸ List.mem_cons_self _ _)
    have hxs : sep ∉ xs := fun e => h (List.mem_cons_of_mem _ e)
    have hb : (x != sep) = true := bne_iff_ne.mpr hx
    rw [List.cons_append, List.dropWhile_cons, hb, if_pos rfl, ih hxs]

/-- Model fact: `SplitN(p, sep, 2)` has two fields exactly when `p` contains `sep`, and they are
the text before and the text after the first `sep`. -/
theorem SplitN_two_eq_cutAtFirst (sep : Char) (p : GoString) :
    SplitN p sep 2 =
      match cutAtFirst sep p with
      | some (k, v) => [k, v]
      | none => [p] := by
  rcases SplitN_two_cases sep p with ⟨h, e⟩ | ⟨a, b, rfl, ha, e⟩
  · simp [cutAtFirst, h, e]
  · have hm : sep ∈ a ++ sep :: b := by simp
    rw [e]
    simp only [cutAtFirst, if_pos hm, takeWhile_bne_append b ha, dropWhile_bne_append b ha]
    simp

theorem scanPart_eq (st : Int × GoString) (p : GoString) :
    scanPart st p =
      match cutAtFirst '=' (TrimSpace p) with
      | some (k, v) =>
        if k = ['t'] then ((ParseInt v).1, st.2)
        else if k = ['v', '1'] then (st.1, v)
        else st
      | none => st := by
  unfold scanPart
  rw [SplitN_two_eq_cutAtFirst]
  cases cutAtFirst '=' (TrimSpace p) with
  | none => rfl
  | some kv => rfl

theorem scanPart_inv (E : List (GoString × GoString)) (st : Int × GoString) (p : GoString)
    (hst : ScanInv E st) (hp : ∀ e, cutAtFirst '=' (TrimSpace p) = some e → e ∈ E) :
    ScanInv E (scanPart st p) := by
  rw [scanPart_eq]
  cases hc : cutAtFirst '=' (TrimSpace p) with
  | none => exact hst
  | some kv =>
    obtain ⟨k, v⟩ := kv
    have hmem := hp (k, v) hc
    simp only
    split
    · rename_i hk
      subst hk
      exact ⟨Or.inr ⟨v, hmem, rfl⟩, hst.2⟩
    · split
      · rename_i hk
        subst hk
        exact ⟨hst.1, Or.inr hmem⟩
      · exact hst

theorem foldl_scanPart_inv (E : List (GoString × GoString)) (parts : List GoString)
    (st : Int × GoString) (hst : ScanInv E st)
    (hp : ∀ p ∈ parts, ∀ e, cutAtFirst '=' (TrimSpace p) = some e → e ∈ E) :
    ScanInv E (parts.foldl scanPart st) := by
  induction parts generalizing st with
  | nil => exact hst
  | cons p ps ih =>
    simp only [List.foldl_cons]
    apply ih
    · exact scanPart_inv E st p hst (hp p (List.mem_cons_self _ _))
    · intro q hq
      exact hp q (List.mem_cons_of_mem _ hq)

theorem scanHeader_inv (hdr : GoString) : ScanInv (headerEntries hdr) (scanHeader hdr) := by
  unfold scanHeader
  apply foldl_scanPart_inv
  · exact ⟨Or.inl rfl, Or.inl rfl⟩
  · intro p hp e he
    rw [Split_eq_splitOn] at hp
    simp only [headerEntries, List.mem_filterMap, List.mem_map]
    exact ⟨TrimSpace p, ⟨p, hp, rfl⟩, he⟩

/-- When `ParseInt` fails, the value it returns is 0 (syntax error) or a bound of
`int64` (range error). -/
theorem ParseInt_error_value (v : GoString) (h : (ParseInt v).2 ≠ none) :
    (ParseInt v).1 = 0 ∨ (ParseInt v).1 = 2 ^ 63 - 1 ∨ (ParseInt v).1 = -(2 ^ 63) := by
  cases v with
  | nil => exact Or.inl rfl
  | cons c rest =>
    simp only [ParseInt] at h ⊢
    generalize ParseUint (if c = '+' ∨ c = '-' then rest else c :: rest) = q at h ⊢
    obtain ⟨un, e⟩ := q
    rcases e with _ | e
    · simp only at h ⊢
      split_ifs at h ⊢
      · right; left; norm_num
      · right; right; norm_num
      · exact absurd rfl h
      · exact absurd rfl h
    · cases e with
      | errSyntax => exact Or.inl rfl
      | errRange =>
        simp only at h ⊢
        split_ifs at h ⊢
        · right; left; norm_num
        · right; right; norm_num
        · exact absurd rfl h
        · exact absurd rfl h

theorem timeSince_bounds_too_old (now : Nat) (t : Int)
    (h : t = 2 ^ 63 - 1 ∨ t = -(2 ^ 63)) :
    timeSince now (timeUnix t) > signatureTolerance := by
  rcases h with h | h
  · exact timeSince_timeUnix_wrapped now t (by omega) (by omega)
  · rw [timeSince_timeUnix_gt now t (by omega) (by omega)]
    omega

/-- A header that `VerifyWebhookSignature` accepts is not empty and has a `t=` entry
parsing to a non-zero integer and a non-empty `v1=` entry. -/
theorem VerifyWebhookSignature_none_entries (hmacSHA256 : Hmac) (now : Nat) (c : Client)
    (body hdr : GoString) (h : VerifyWebhookSignature hmacSHA256 now c body hdr = none) :
    hdr ≠ [] ∧ hasTimestampEntry hdr = true ∧ hasSignatureEntry hdr = true := by
  unfold VerifyWebhookSignature at h
  split at h
  · cases h
  · rename_i hne
    simp only at h
    split at h
    · cases h
    · rename_i hfmt
      split at h
      · cases h
      · rename_i hold
        obtain ⟨hT, hV⟩ := scanHeader_inv hdr
        have hv1 : (scanHeader hdr).2 ≠ [] := fun e => hfmt (Or.inl e)
        have ht : (scanHeader hdr).1 ≠ 0 := fun e => hfmt (Or.inr e)
        refine ⟨hne, ?_, ?_⟩
        · rcases hT with e | ⟨v, hmem, hval⟩
          · exact absurd e ht
          · by_cases herr : (ParseInt v).2 = none
            · simp only [hasTimestampEntry, List.any_eq_true, decide_eq_true_eq]
              exact ⟨(['t'], v), hmem, rfl, herr, by rw [← hval]; exact ht⟩
            · exfalso
              rcases ParseInt_error_value v herr with e | e | e
              · exact ht (by rw [hval, e])
              · exact hold (timeSince_bounds_too_old now _ (Or.inl (by rw [hval, e])))
              · exact hold (timeSince_bounds_too_old now _ (Or.inr (by rw [hval, e])))
        · rcases hV with e | hmem
          · exact absurd e hv1
          · simp only [hasSignatureEntry, List.any_eq_true, decide_eq_true_eq]
            exact ⟨_, hmem, rfl, hv1⟩

/-- C4: on a POST notification whose signature header is empty (absent), has no `t=`
entry parsing to a non-zero integer, or has no non-empty `v1=` entry,
`VerifyWebhookSignature` returns an error; and on every POST notification on which it
returns an error `WebhookHandler` answers 401 and does not call `fulfill`, whatever
the body. -/
theorem WebhookHandler_rejects_unverified {σ : Type} (hmacSHA256 : Hmac)
    (jsonUnmarshal : JsonDecoder) (c : Client) (fulfill : FulfillFunc σ) (now : Nat)
    (r : Request) (st : σ) (body : GoString)
    (hm : r.method = "POST".toList) (hb : r.body = some body) :
    ((r.stripeSignature = [] ∨ hasTimestampEntry r.stripeSignature = false ∨
        hasSignatureEntry r.stripeSignature = false) →
      VerifyWebhookSignature hmacSHA256 now c body r.stripeSignature ≠ none) ∧
    (VerifyWebhookSignature hmacSHA256 now c body r.stripeSignature ≠ none →
      WebhookHandler hmacSHA256 jsonUnmarshal c fulfill now r st = ⟨401, [], st⟩) := by
  constructor
  · intro hbad hnone
    obtain ⟨h1, h2, h3⟩ := VerifyWebhookSignature_none_entries _ _ _ _ _ hnone
    rcases hbad with h | h | h
    · exact h1 h
    · rw [h2] at h; cases h
    · rw [h3] at h; cases h
  · intro hv
    cases hq : VerifyWebhookSignature hmacSHA256 now c body r.stripeSignature with
    | none => exact absurd hq hv
    | some e =>
      simp only [WebhookHandler, hm, hb, hq, ne_eq, not_true_eq_false, if_false]

/-- C4, witness: the paid sample event delivered with the header `v1=abc`, which has
no timestamp, is refused by the verification and answered 401 without fulfilment. -/
theorem WebhookHandler_rejects_unverified_witness :
    hasTimestampEntry unsignedRequest.stripeSignature = false ∧
    VerifyWebhookSignature zeroHmac sampleNow sampleClient sampleBody
      unsignedRequest.stripeSignature ≠ none ∧
    WebhookHandler zeroHmac sampleDecoder sampleClient fulfillPurchase sampleNow
      unsignedRequest sampleStore = ⟨401, [], sampleStore⟩ :=
  have h := WebhookHandler_rejects_unverified zeroHmac sampleDecoder sampleClient
    fulfillPurchase sampleNow unsignedRequest sampleStore sampleBody (by decide) (by decide)
  ⟨by decide, h.1 (Or.inr (Or.inl (by decide))),
    h.2 (h.1 (Or.inr (Or.inl (by decide))))⟩

/-! ## The callback token -/

theorem GoMap.lookup_set (m : GoMap) (k v k1 : GoString) :
    GoMap.lookup (GoMap.set m k v) k1 = if k = k1 then some v else GoMap.lookup m k1 := by
  induction m with
  | nil => simp [GoMap.set, GoMap.lookup]
  | cons kv m ih =>
    obtain ⟨k0, v0⟩ := kv
    simp only [GoMap.set]
    by_cases h0 : k0 = k
    · subst h0
      simp only [if_true, GoMap.lookup]
      split <;> simp_all
    · simp only [if_neg h0, GoMap.lookup, ih]
      by_cases h1 : k0 = k1
      · subst h1
        have : ¬ (k = k0) := fun e => h0 e.symm
        simp [this]
      · simp [h1]

theorem GoMap.set_of_not_mem (m : GoMap) (k v : GoString) (h : k ∉ GoMap.keys m) :
    GoMap.set m k v = m ++ [(k, v)] := by
  induction m with
  | nil => rfl
  | cons kv m ih =>
    obtain ⟨k0, v0⟩ := kv
    have h0 : ¬ (k0 = k) := fun e => h (by simp [GoMap.keys, e])
    have hm : k ∉ GoMap.keys m := fun e => h (by
      simp only [GoMap.keys, List.map_cons, List.mem_cons]
      exact Or.inr e)
    simp [GoMap.set, h0, ih hm]

theorem GoMap.keys_set (m : GoMap) (k v : GoString) :
    GoMap.keys (GoMap.set m k v) =
      if k ∈ GoMap.keys m then GoMap.keys m else GoMap.keys m ++ [k] := by
  induction m with
  | nil => simp [GoMap.set, GoMap.keys]
  | cons kv m ih =>
    obtain ⟨k0, v0⟩ := kv
    by_cases h0 : k0 = k
    · subst h0
      simp [GoMap.set, GoMap.keys]
    · have h0' : ¬ (k = k0) := fun e => h0 e.symm
      simp only [GoMap.keys] at ih
      simp only [GoMap.set, if_neg h0, GoMap.keys, List.map_cons, List.mem_cons, h0',
        false_or, ih]
      split <;> simp

theorem GoMap.keys_set_nodup (m : GoMap) (k v : GoString) (h : (GoMap.keys m).Nodup) :
    (GoMap.keys (GoMap.set m k v)).Nodup := by
  rw [GoMap.keys_set]
  split
  · exact h
  · rename_i hk
    rw [List.nodup_append]
    refine ⟨h, List.nodup_singleton k, ?_⟩
    intro a ha hb
    rw [List.mem_singleton] at hb
    exact hk (hb ▸ ha)

theorem addParam_eq (m : GoMap) (seg : GoString) :
    addParam m seg =
      match cutAtFirst '=' seg with
      | some kv => GoMap.set m kv.1 kv.2
      | none => m := by
  unfold addParam
  rw [SplitN_two_eq_cutAtFirst]
  cases cutAtFirst '=' seg with
  | none => rfl
  | some kv => rfl

theorem foldl_addParam_nodup (segs : List GoString) (m : GoMap) (h : (GoMap.keys m).Nodup) :
    (GoMap.keys (segs.foldl addParam m)).Nodup := by
  induction segs generalizing m with
  | nil => exact h
  | cons seg segs ih =>
    simp only [List.foldl_cons]
    apply ih
    rw [addParam_eq]
    cases cutAtFirst '=' seg with
    | none => exact h
    | some kv => exact GoMap.keys_set_nodup m _ _ h

theorem lookup_foldl_addParam (segs : List GoString) (m : GoMap) (k : GoString) :
    GoMap.lookup (segs.foldl addParam m) k =
      match (segs.filterMap (cutAtFirst '=')).reverse.find? fun kv => decide (kv.1 = k) with
      | some kv => some kv.2
      | none => GoMap.lookup m k := by
  induction segs generalizing m with
  | nil => rfl
  | cons seg segs ih =>
    simp only [List.foldl_cons]
    rw [ih, addParam_eq]
    cases hc : cutAtFirst '=' seg with
    | none => simp [List.filterMap_cons, hc]
    | some kv =>
      simp only [List.filterMap_cons, hc, List.reverse_cons, List.find?_append]
      cases hf : List.find? (fun kv => decide (kv.1 = k))
          (List.filterMap (cutAtFirst '=') segs).reverse with
      | some kv1 => simp
      | none =>
        simp only [Option.none_or, GoMap.lookup_set, List.find?_cons, List.find?_nil]
        by_cases hk : kv.1 = k
        · simp [hk]
        · simp [hk]

theorem takeWhile_bne_of_not_mem {sep : Char} {s : GoString} (h : sep ∉ s) :
    s.takeWhile (· != sep) = s := by
  induction s with
  | nil => rfl
  | cons x xs ih =>
    have hx : x ≠ sep := fun e => h (e ▸ List.mem_cons_self _ _)
    have hxs : sep ∉ xs := fun e => h (List.mem_cons_of_mem _ e)
    have hb : (x != sep) = true := bne_iff_ne.mpr hx
    rw [List.takeWhile_cons, hb, if_pos rfl, ih hxs]

theorem dropWhile_bne_of_not_mem {sep : Char} {s : GoString} (h : sep ∉ s) :
    s.dropWhile (· != sep) = [] := by
  induction s with
  | nil => rfl
  | cons x xs ih =>
    have hx : x ≠ sep := fun e => h (e ▸ List.mem_cons_self _ _)
    have hxs : sep ∉ xs := fun e => h (List.mem_cons_of_mem _ e)
    have hb : (x != sep) = true := bne_iff_ne.mpr hx
    rw [List.dropWhile_cons, hb, if_pos rfl, ih hxs]

theorem exists_append_of_mem {sep : Char} {s : GoString} (h : sep ∈ s) :
    ∃ a b, s = a ++ sep :: b ∧ sep ∉ a := by
  cases hq : indexByte sep s with
  | none => exact absurd h (not_mem_of_indexByte_eq_none hq)
  | some m =>
    obtain ⟨h1, h2⟩ := indexByte_eq_some hq
    exact ⟨_, _, h1, h2⟩

/-- The first field of `strings.Split(s, sep)` is the text before the first `sep`. -/
theorem Split_head (s : GoString) (sep : Char) :
    ∃ tl, Split s sep = s.takeWhile (· != sep) :: tl := by
  by_cases h : sep ∈ s
  · obtain ⟨a, b, rfl, ha⟩ := exists_append_of_mem h
    exact ⟨Split b sep, by rw [Split_append b ha, takeWhile_bne_append b ha]⟩
  · exact ⟨[], by rw [Split_of_not_mem h, takeWhile_bne_of_not_mem h]⟩

theorem parseCallbackData_of_not_mem {data : GoString} (h : '?' ∉ data) :
    parseCallbackData data = [] := by
  simp [parseCallbackData, Split_of_not_mem h]

theorem queryText_of_not_mem {data : GoString} (h : '?' ∉ data) : queryText data = [] := by
  simp [queryText, dropWhile_bne_of_not_mem h]

theorem parseCallbackData_of_mem {data : GoString} (h : '?' ∈ data) :
    parseCallbackData data = ((queryText data).splitOn '&').foldl addParam [] := by
  obtain ⟨a, rest, rfl, ha⟩ := exists_append_of_mem h
  obtain ⟨tl, htl⟩ := Split_head rest '?'
  have hq : queryText (a ++ '?' :: rest) = rest.takeWhile (· != '?') := by
    simp [queryText, dropWhile_bne_append rest ha]
  simp only [parseCallbackData, Split_append rest ha, htl, hq, Split_eq_splitOn]
  simp

/-- C8: `parseCallbackData` is a total function that never fails: a token without `?`
yields the empty map; in general the result is a map (its keys are distinct) that
gives every key the value of the last `key=value` pair among the `&`-separated
segments of the text between the first `?` and the next one, the pairs being the
segments that contain `=`, cut at their first `=`; segments without `=` contribute
nothing. -/
theorem parseCallbackData_spec (data : GoString) :
    ('?' ∉ data → parseCallbackData data = []) ∧
    (∀ k, GoMap.lookup (parseCallbackData data) k = decodedValue data k) ∧
    (GoMap.keys (parseCallbackData data)).Nodup := by
  refine ⟨parseCallbackData_of_not_mem, ?_, ?_⟩
  · intro k
    by_cases h : '?' ∈ data
    · rw [parseCallbackData_of_mem h, lookup_foldl_addParam]
      simp only [decodedValue, segmentPairs]
      cases List.find? (fun kv => decide (kv.1 = k))
          (List.filterMap (cutAtFirst '=') (List.splitOn '&' (queryText data))).reverse with
      | none => rfl
      | some kv => rfl
    · rw [parseCallbackData_of_not_mem h]
      simp only [decodedValue, segmentPairs, queryText_of_not_mem h]
      rfl
  · by_cases h : '?' ∈ data
    · rw [parseCallbackData_of_mem h]
      exact foldl_addParam_nodup _ [] List.nodup_nil
    · rw [parseCallbackData_of_not_mem h]
      exact List.nodup_nil

theorem mem_encodeParam {c : Char} {kv : GoString × GoString} (h : c ∈ encodeParam kv) :
    c ∈ kv.1 ∨ c = '=' ∨ c ∈ kv.2 := by
  simp only [encodeParam, List.mem_append, List.mem_cons] at h
  exact h

theorem joinParams_cons_cons (kv kv1 : GoString × GoString) (rest : GoMap) :
    joinParams (kv :: kv1 :: rest) = encodeParam kv ++ '&' :: joinParams (kv1 :: rest) := rfl

theorem mem_joinParams {c : Char} {ps : GoMap} (h : c ∈ joinParams ps) :
    c = '&' ∨ ∃ kv ∈ ps, c ∈ encodeParam kv := by
  induction ps with
  | nil => simp [joinParams] at h
  | cons kv rest ih =>
    cases rest with
    | nil =>
      simp only [joinParams] at h
      exact Or.inr ⟨kv, List.mem_cons_self _ _, h⟩
    | cons kv1 rest1 =>
      rw [joinParams_cons_cons] at h
      simp only [List.mem_append, List.mem_cons] at h
      rcases h with h | h | h
      · exact Or.inr ⟨kv, List.mem_cons_self _ _, h⟩
      · exact Or.inl h
      · rcases ih h with e | ⟨kv2, hm, hc⟩
        · exact Or.inl e
        · exact Or.inr ⟨kv2, List.mem_cons_of_mem _ hm, hc⟩

theorem Split_joinParams (ps : GoMap) (hne : ps ≠ [])
    (h : ∀ kv ∈ ps, '&' ∉ kv.1 ∧ '&' ∉ kv.2) :
    Split (joinParams ps) '&' = ps.map encodeParam := by
  have hseg : ∀ kv ∈ ps, '&' ∉ encodeParam kv := by
    intro kv hkv hc
    rcases mem_encodeParam hc with e | e | e
    · exact (h kv hkv).1 e
    · revert e; decide
    · exact (h kv hkv).2 e
  induction ps with
  | nil => exact absurd rfl hne
  | cons kv rest ih =>
    cases rest with
    | nil =>
      simp only [joinParams, List.map_cons, List.map_nil]
      exact Split_of_not_mem (hseg kv (List.mem_cons_self _ _))
    | cons kv1 rest1 =>
      rw [joinParams_cons_cons, Split_append _ (hseg kv (List.mem_cons_self _ _))]
      have := ih (by simp) (fun kv2 hm => h kv2 (List.mem_cons_of_mem _ hm))
        (fun kv2 hm => hseg kv2 (List.mem_cons_of_mem _ hm))
      rw [this]
      rfl

theorem addParam_encodeParam (m : GoMap) (kv : GoString × GoString) (h : '=' ∉ kv.1) :
    addParam m (encodeParam kv) = GoMap.set m kv.1 kv.2 := by
  simp only [addParam, encodeParam, SplitN_two_append kv.2 h]

theorem foldl_addParam_encodeParam (ps acc : GoMap)
    (heq : ∀ kv ∈ ps, '=' ∉ kv.1)
    (hnd : (GoMap.keys ps).Nodup)
    (hdis : ∀ k ∈ GoMap.keys ps, k ∉ GoMap.keys acc) :
    (ps.map encodeParam).foldl addParam acc = acc ++ ps := by
  induction ps generalizing acc with
  | nil => simp
  | cons kv rest ih =>
    simp only [GoMap.keys, List.map_cons, List.nodup_cons] at hnd
    have hk : kv.1 ∉ GoMap.keys acc := hdis kv.1 (by simp [GoMap.keys])
    simp only [List.map_cons, List.foldl_cons]
    rw [addParam_encodeParam acc kv (heq kv (List.mem_cons_self _ _)),
      GoMap.set_of_not_mem acc kv.1 kv.2 hk]
    rw [ih (acc ++ [(kv.1, kv.2)]) (fun kv2 hm => heq kv2 (List.mem_cons_of_mem _ hm)) hnd.2]
    · simp
    · intro k hkm hc
      simp only [GoMap.keys, List.map_append, List.map_cons, List.map_nil, List.mem_append,
        List.mem_singleton] at hc
      rcases hc with hc | hc
      · exact hdis k (by
          simp only [GoMap.keys, List.map_cons, List.mem_cons]
          exact Or.inr hkm) hc
      · exact hnd.1 (hc ▸ hkm)

theorem callbackActions_no_query : ∀ a ∈ callbackActions, '?' ∉ a := by decide

/-- C7: round trip of the callback token.  For every action of the fixed set and every
mapping with distinct keys whose keys and values contain none of `&`, `?`, `=`
(ASCII or not), parsing the encoded token `action?k1=v1&k2=v2` with
`parseCallbackData` gives back the mapping; and the bare action, which the handlers
emit when there is nothing to carry, parses to the empty mapping. -/
theorem parseCallbackData_encodeCallbackData (action : GoString) (params : GoMap)
    (ha : action ∈ callbackActions)
    (hnd : (GoMap.keys params).Nodup)
    (hc : ∀ kv ∈ params, ∀ c ∈ ['&', '?', '='], c ∉ kv.1 ∧ c ∉ kv.2) :
    parseCallbackData (encodeCallbackData action params) = params ∧
    parseCallbackData action = [] := by
  have hact := callbackActions_no_query action ha
  refine ⟨?_, parseCallbackData_of_not_mem hact⟩
  have hq : '?' ∉ joinParams params := by
    intro h
    rcases mem_joinParams h with e | ⟨kv, hm, hcm⟩
    · revert e; decide
    · have hkv := hc kv hm '?' (by simp)
      rcases mem_encodeParam hcm with e | e | e
      · exact hkv.1 e
      · revert e; decide
      · exact hkv.2 e
  have hsplit : Split (action ++ '?' :: joinParams params) '?' =
      [action, joinParams params] := by
    rw [Split_append _ hact, Split_of_not_mem hq]
  simp only [encodeCallbackData, parseCallbackData, hsplit]
  simp only [List.length_cons, List.length_nil, List.getD_cons_succ, List.getD_cons_zero]
  rw [if_neg (by decide)]
  by_cases hne : params = []
  · subst hne
    rfl
  · have hamp := Split_joinParams params hne (fun kv hm => hc kv hm '&' (by simp))
    rw [hamp,
      foldl_addParam_encodeParam params [] (fun kv hm => (hc kv hm '=' (by simp)).1) hnd
        (by simp [GoMap.keys])]
    simp

/-- The tokens built by `fmt.Sprintf("%s?month=%d&amount=%d", ...)` are instances of
the wire format. -/
theorem monthAmountToken_eq_encode (action : GoString) (month price : Int) :
    monthAmountToken action month price =
      encodeCallbackData action
        [("month".toList, FormatInt month), ("amount".toList, FormatInt price)] := by
  simp [monthAmountToken, encodeCallbackData, joinParams, encodeParam]

/-- C7, witness: the token `sell?month=3&amount=500`. -/
theorem parseCallbackData_encodeCallbackData_witness :
    encodeCallbackData CallbackSell
        [("month".toList, "3".toList), ("amount".toList, "500".toList)] =
      "sell?month=3&amount=500".toList ∧
    parseCallbackData (encodeCallbackData CallbackSell
        [("month".toList, "3".toList), ("amount".toList, "500".toList)]) =
      [("month".toList, "3".toList), ("amount".toList, "500".toList)] :=
  ⟨by decide,
    (parseCallbackData_encodeCallbackData CallbackSell
      [("month".toList, "3".toList), ("amount".toList, "500".toList)]
      (by decide) (by decide) (by decide)).1⟩

/-! ## The payment callback -/

theorem parseUintLoop_error (s : GoString) (n : Nat)
    (h : ∃ c ∈ s, isDigit c = false) : (parseUintLoop s n).2 ≠ none := by
  induction s generalizing n with
  | nil => obtain ⟨c, hc, -⟩ := h; simp at hc
  | cons x xs ih =>
    simp only [parseUintLoop]
    split
    · rename_i hx
      split
      · simp
      · split
        · simp
        · apply ih
          obtain ⟨c, hc, hd⟩ := h
          rcases List.mem_cons.mp hc with e | e
          · subst e
            simp [isDigit, hx] at hd
          · exact ⟨c, e, hd⟩
    · simp

theorem parseUintLoop_range_value (s : GoString) (n : Nat)
    (h : (parseUintLoop s n).2 = some .errRange) : (parseUintLoop s n).1 = maxUint64 := by
  induction s generalizing n with
  | nil => simp [parseUintLoop] at h
  | cons x xs ih =>
    simp only [parseUintLoop] at h ⊢
    split at h
    · rw [if_pos (by assumption)]
      split at h
      · rw [if_pos (by assumption)]
      · rw [if_neg (by assumption)]
        split at h
        · rw [if_pos (by assumption)]
        · rw [if_neg (by assumption)]
          exact ih _ h
    · simp at h

theorem ParseUint_range_value (d : GoString)
    (h : (ParseUint d).2 = some .errRange) : (ParseUint d).1 = maxUint64 := by
  unfold ParseUint at h ⊢
  split at h
  · simp at h
  · rw [if_neg (by assumption)]
    exact parseUintLoop_range_value _ _ h

/-- An error of `ParseUint` on the digits is an error of `ParseInt`. -/
theorem ParseInt_error_of_ParseUint_error (c : Char) (rest : GoString)
    (h : (ParseUint (if c = '+' ∨ c = '-' then rest else c :: rest)).2 ≠ none) :
    (ParseInt (c :: rest)).2 ≠ none := by
  have hval := ParseUint_range_value (if c = '+' ∨ c = '-' then rest else c :: rest)
  simp only [ParseInt]
  generalize ParseUint (if c = '+' ∨ c = '-' then rest else c :: rest) = q at h hval ⊢
  obtain ⟨un, e⟩ := q
  rcases e with _ | e
  · exact absurd rfl h
  · cases e with
    | errSyntax => simp
    | errRange =>
      have hun : un = maxUint64 := hval rfl
      have hmax : maxUint64 = 18446744073709551615 := by decide
      rw [hmax] at hun
      subst hun
      by_cases hneg : c = '-'
      · simp [hneg]
      · simp [hneg]

/-- A string that does not have the syntax of a decimal integer is rejected by
`Atoi`. -/
theorem Atoi_error_of_not_decimal (s : GoString) (h : isDecimalInteger s = false) :
    (Atoi s).2 ≠ none := by
  unfold Atoi
  cases s with
  | nil => simp [ParseInt]
  | cons c rest =>
    apply ParseInt_error_of_ParseUint_error
    simp only [isDecimalInteger] at h
    split at h
    · rename_i hsign
      rw [if_pos hsign]
      simp only [Bool.and_eq_false_iff, Bool.not_eq_false', List.isEmpty_iff,
        List.all_eq_false] at h
      unfold ParseUint
      rcases h with h | ⟨x, hx, hd⟩
      · simp [h]
      · split
        · simp
        · exact parseUintLoop_error _ _ ⟨x, hx, by simpa using hd⟩
    · rename_i hsign
      rw [if_neg hsign]
      simp only [List.all_eq_false] at h
      obtain ⟨x, hx, hd⟩ := h
      unfold ParseUint
      rw [if_neg (by simp)]
      exact parseUintLoop_error _ _ ⟨x, hx, by simpa using hd⟩

theorem GoMap.get_of_lookup_none (m : GoMap) (k : GoString) (h : GoMap.lookup m k = none) :
    GoMap.get m k = [] := by
  simp [GoMap.get, h]

/-- C9: `PaymentCallbackHandler` fails closed on a bad month.  When the decoded token
has no `month`, or its `month` does not have the syntax of a decimal integer, or
`Atoi` rejects it for any reason (range included), the handler returns having made no
call at all: no customer lookup, no `CreatePurchase`, no message edit and no cache
write, and the world is as before. -/
theorem PaymentCallbackHandler_fails_closed {σ : Type} (cfg : Config) (it : InvoiceTypes)
    (h : Handler σ) (update : CallbackUpdate) (w : σ)
    (hbad : GoMap.lookup (parseCallbackData update.data) "month".toList = none ∨
      isDecimalInteger (GoMap.get (parseCallbackData update.data) "month".toList) = false ∨
      (Atoi (GoMap.get (parseCallbackData update.data) "month".toList)).2 ≠ none) :
    PaymentCallbackHandler cfg it h update w = ([], w) := by
  have herr : (Atoi (GoMap.get (parseCallbackData update.data) "month".toList)).2 ≠ none := by
    rcases hbad with h1 | h1 | h1
    · rw [GoMap.get_of_lookup_none _ _ h1]
      decide
    · exact Atoi_error_of_not_decimal _ h1
    · exact h1
  unfold PaymentCallbackHandler
  cases hq : Atoi (GoMap.get (parseCallbackData update.data) "month".toList) with
  | mk month e =>
    rw [hq] at herr
    cases e with
    | none => exact absurd rfl herr
    | some e => simp only [hq]

/-- C9, witness: a token without `month`. -/
theorem PaymentCallbackHandler_fails_closed_witness :
    PaymentCallbackHandler sampleConfig sampleInvoiceTypes sampleHandler
      (sampleUpdate "payment?invoiceType=telegram&amount=750".toList) 0 = ([], 0) :=
  PaymentCallbackHandler_fails_closed sampleConfig sampleInvoiceTypes sampleHandler
    (sampleUpdate "payment?invoiceType=telegram&amount=750".toList) 0 (Or.inl (by decide))

/-- The run of `PaymentCallbackHandler` is determined by the configuration, the
collaborators, the world, the chat, message and user of the update, and the values the
token gives to `month` and `invoiceType`. -/
theorem PaymentCallbackHandler_congr {σ : Type} (cfg : Config) (it : InvoiceTypes)
    (h : Handler σ) (u1 u2 : CallbackUpdate) (w : σ)
    (hchat : u1.chatID = u2.chatID) (hmsg : u1.messageID = u2.messageID)
    (huser : u1.username = u2.username) (hlang : u1.languageCode = u2.languageCode)
    (hmonth : GoMap.get (parseCallbackData u1.data) "month".toList =
      GoMap.get (parseCallbackData u2.data) "month".toList)
    (htype : GoMap.get (parseCallbackData u1.data) "invoiceType".toList =
      GoMap.get (parseCallbackData u2.data) "invoiceType".toList) :
    PaymentCallbackHandler cfg it h u1 w = PaymentCallbackHandler cfg it h u2 w := by
  unfold PaymentCallbackHandler
  simp only [hchat, hmsg, huser, hlang, hmonth, htype]

/-- C10: the token's `amount` is advisory.  Two payment callbacks that differ only in
their token, the two tokens decoding to the same `month` and `invoiceType` (and to any
`amount` and other keys), make the same calls with the same arguments under the same
configuration, collaborators and world; and every `CreatePurchase` call carries the
parsed month, the token's invoice type and the price the configuration gives for that
invoice type and month, every rendered back button the token `backCallback` computed
from the configuration, invoice type, month and that price. -/
theorem PaymentCallbackHandler_amount_advisory {σ : Type} (cfg : Config) (it : InvoiceTypes)
    (h : Handler σ) (update : CallbackUpdate) (data2 : GoString) (w : σ)
    (hmonth : GoMap.get (parseCallbackData update.data) "month".toList =
      GoMap.get (parseCallbackData data2) "month".toList)
    (htype : GoMap.get (parseCallbackData update.data) "invoiceType".toList =
      GoMap.get (parseCallbackData data2) "invoiceType".toList) :
    PaymentCallbackHandler cfg it h update w =
      PaymentCallbackHandler cfg it h { update with data := data2 } w ∧
    (∀ username price month customer invoiceType,
      Call.createPurchase username price month customer invoiceType ∈
        (PaymentCallbackHandler cfg it h update w).1 →
      Atoi (GoMap.get (parseCallbackData update.data) "month".toList) = (month, none) ∧
      invoiceType = GoMap.get (parseCallbackData update.data) "invoiceType".toList ∧
      price = priceFor cfg it invoiceType month) ∧
    (∀ chatID messageID keyboard,
      Call.editMessageReplyMarkup chatID messageID keyboard ∈
        (PaymentCallbackHandler cfg it h update w).1 →
      ∃ month payButton backButton,
        Atoi (GoMap.get (parseCallbackData update.data) "month".toList) = (month, none) ∧
        keyboard = [[payButton, backButton]] ∧
        backButton.callbackData =
          backCallback cfg it (GoMap.get (parseCallbackData update.data) "invoiceType".toList)
            month
            (priceFor cfg it
              (GoMap.get (parseCallbackData update.data) "invoiceType".toList) month)) := by
  refine ⟨PaymentCallbackHandler_congr cfg it h update { update with data := data2 } w
    rfl rfl rfl rfl hmonth htype, ?_, ?_⟩
  · intro username price month customer invoiceType hmem
    simp only [PaymentCallbackHandler] at hmem ⊢
    generalize Atoi _ = q at hmem ⊢
    obtain ⟨m, e⟩ := q
    cases e with
      | some e => simp at hmem
      | none =>
        simp only at hmem
        split at hmem
        · simp at hmem
        · simp at hmem
        · split at hmem
          · simp at hmem
            obtain ⟨-, rfl, rfl, -, rfl⟩ := hmem
            exact ⟨rfl, rfl, rfl⟩
          · split at hmem
            · simp at hmem
              obtain ⟨-, rfl, rfl, -, rfl⟩ := hmem
              exact ⟨rfl, rfl, rfl⟩
            · simp at hmem
              obtain ⟨-, rfl, rfl, -, rfl⟩ := hmem
              exact ⟨rfl, rfl, rfl⟩
  · intro chatID messageID keyboard hmem
    simp only [PaymentCallbackHandler] at hmem ⊢
    generalize Atoi _ = q at hmem ⊢
    obtain ⟨m, e⟩ := q
    cases e with
      | some e => simp at hmem
      | none =>
        simp only at hmem
        split at hmem
        · simp at hmem
        · simp at hmem
        · split at hmem
          · simp at hmem
          · split at hmem
            · simp at hmem
              obtain ⟨-, -, rfl⟩ := hmem
              exact ⟨m, _, _, rfl, rfl, rfl⟩
            · simp at hmem
              obtain ⟨-, -, rfl⟩ := hmem
              exact ⟨m, _, _, rfl, rfl, rfl⟩

/-- C10, witness: the tokens `payment?month=3&invoiceType=stripe&amount=1800` and
`payment?month=3&invoiceType=stripe&amount=1` lead to the same calls. -/
theorem PaymentCallbackHandler_amount_advisory_witness :
    PaymentCallbackHandler sampleConfig sampleInvoiceTypes sampleHandler
      (sampleUpdate "payment?month=3&invoiceType=stripe&amount=1800".toList) 0 =
    PaymentCallbackHandler sampleConfig sampleInvoiceTypes sampleHandler
      (sampleUpdate "payment?month=3&invoiceType=stripe&amount=1".toList) 0 :=
  (PaymentCallbackHandler_amount_advisory sampleConfig sampleInvoiceTypes sampleHandler
    (sampleUpdate "payment?month=3&invoiceType=stripe&amount=1800".toList)
    "payment?month=3&invoiceType=stripe&amount=1".toList 0 (by decide) (by decide)).1

/-! ## Eligibility of the Stars channel -/

/-- C12: `shouldShowStarsButton` answers true exactly when Stars is enabled and either
gating is off or the customer lookup finds a customer and the paid-purchase lookup
(made in the world the first lookup leaves) finds a purchase; in particular, with
gating on and a customer whose paid-purchase lookup finds nothing, the answer is
false whatever the rest of the configuration. -/
theorem shouldShowStarsButton_iff {σ : Type} (cfg : Config) (h : Handler σ) (chatID : Int)
    (w : σ) :
    ((shouldShowStarsButton cfg h chatID w).1 = true ↔
      cfg.isTelegramStarsEnabled = true ∧
      (cfg.requirePaidPurchaseForStars = false ∨
        ∃ customer w1 purchase w2,
          h.findByTelegramId chatID w = (.ok (some customer), w1) ∧
          h.findSuccessfulPaidPurchaseByCustomer customer.id w1 =
            (.ok (some purchase), w2))) ∧
    (cfg.requirePaidPurchaseForStars = true →
      (∀ customer w1, h.findByTelegramId chatID w = (.ok (some customer), w1) →
        ∃ w2, h.findSuccessfulPaidPurchaseByCustomer customer.id w1 = (.ok none, w2)) →
      (shouldShowStarsButton cfg h chatID w).1 = false) := by
  have key : (shouldShowStarsButton cfg h chatID w).1 = true ↔
      cfg.isTelegramStarsEnabled = true ∧
      (cfg.requirePaidPurchaseForStars = false ∨
        ∃ customer w1 purchase w2,
          h.findByTelegramId chatID w = (.ok (some customer), w1) ∧
          h.findSuccessfulPaidPurchaseByCustomer customer.id w1 =
            (.ok (some purchase), w2)) := by
    unfold shouldShowStarsButton
    by_cases hs : cfg.isTelegramStarsEnabled = true
    · by_cases hg : cfg.requirePaidPurchaseForStars = true
      · simp only [hs, hg, not_true_eq_false, if_false, true_and, Bool.true_eq_false, false_or]
        rcases hf : h.findByTelegramId chatID w with ⟨r, w1⟩
        rcases r with e | c
        · simp
        · rcases c with _ | customer
          · simp
          · simp only
            rcases hp : h.findSuccessfulPaidPurchaseByCustomer customer.id w1 with ⟨r2, w2⟩
            rcases r2 with e | p
            · simp only [Bool.false_eq_true, false_iff, not_exists]
              intro c1 w1' p1 w2' hc
              obtain ⟨h1, h2⟩ := hc
              simp only [Prod.mk.injEq, Except.ok.injEq, Option.some.injEq] at h1
              obtain ⟨rfl, rfl⟩ := h1
              rw [hp] at h2
              simp at h2
            · rcases p with _ | purchase
              · simp only [Option.isSome_none, Bool.false_eq_true, false_iff, not_exists]
                intro c1 w1' p1 w2' hc
                obtain ⟨h1, h2⟩ := hc
                simp only [Prod.mk.injEq, Except.ok.injEq, Option.some.injEq] at h1
                obtain ⟨rfl, rfl⟩ := h1
                rw [hp] at h2
                simp at h2
              · simp only [Option.isSome_some, true_iff]
                exact ⟨customer, w1, purchase, w2, rfl, hp⟩
      · have hg' : cfg.requirePaidPurchaseForStars = false := by
          cases hq : cfg.requirePaidPurchaseForStars <;> simp_all
        simp [hs, hg']
    · have hs' : cfg.isTelegramStarsEnabled = false := by
        cases hq : cfg.isTelegramStarsEnabled <;> simp_all
      simp [hs']
  refine ⟨key, ?_⟩
  intro hg hnone
  cases hr : (shouldShowStarsButton cfg h chatID w).1 with
  | false => rfl
  | true =>
    exfalso
    obtain ⟨-, hcase⟩ := key.mp hr
    rcases hcase with hcase | ⟨customer, w1, purchase, w2, h1, h2⟩
    · rw [hg] at hcase; cases hcase
    · obtain ⟨w2', h3⟩ := hnone customer w1 h1
      rw [h3] at h2
      simp at h2

/-- The payment callback does not consult the eligibility of the channel: whenever
the month parses and the customer is found, `CreatePurchase` is called with the
invoice type of the token, whatever the configuration switches are. -/
theorem PaymentCallbackHandler_creates_purchase {σ : Type} (cfg : Config) (it : InvoiceTypes)
    (h : Handler σ) (update : CallbackUpdate) (w w1 : σ) (month : Int) (customer : Customer)
    (hmonth : Atoi (GoMap.get (parseCallbackData update.data) "month".toList) = (month, none))
    (hcust : h.findByTelegramId update.chatID w = (.ok (some customer), w1)) :
    Call.createPurchase update.username
      (priceFor cfg it (GoMap.get (parseCallbackData update.data) "invoiceType".toList) month)
      month customer (GoMap.get (parseCallbackData update.data) "invoiceType".toList) ∈
      (PaymentCallbackHandler cfg it h update w).1 := by
  simp only [PaymentCallbackHandler, hmonth, hcust]
  split <;> [skip; split] <;> simp

/-- C11, the code at the failing inputs: with Stars disabled, and with Stars gated and
a customer without any paid purchase, `shouldShowStarsButton` is false, and yet the
forged token `payment?month=1&invoiceType=telegram&amount=1` makes
`PaymentCallbackHandler` call `CreatePurchase` with the Telegram invoice type. -/
theorem PaymentCallbackHandler_forged_stars_token :
    (shouldShowStarsButton noStarsConfig menuHandler 1001 0).1 = false ∧
    Call.createPurchase "alice".toList 250 1 ⟨7⟩ sampleInvoiceTypes.telegram ∈
      (PaymentCallbackHandler noStarsConfig sampleInvoiceTypes menuHandler
        (sampleUpdate "payment?month=1&invoiceType=telegram&amount=1".toList) 0).1 ∧
    (shouldShowStarsButton gatedConfig menuHandler 1001 0).1 = false ∧
    Call.createPurchase "alice".toList 250 1 ⟨7⟩ sampleInvoiceTypes.telegram ∈
      (PaymentCallbackHandler gatedConfig sampleInvoiceTypes menuHandler
        (sampleUpdate "payment?month=1&invoiceType=telegram&amount=1".toList) 0).1 := by
  refine ⟨by decide, by decide, by decide, by decide⟩

/-! ## Several signatures in one header -/

/-- The loop of `VerifyWebhookSignature` on `t=<t>,v1=<a>,v1=<b>` leaves `b`, the last
`v1=` entry, in `v1`. -/
theorem scanHeader_two_signatures (t : Int) (a b : GoString)
    (h1 : -(2 ^ 63) ≤ t) (h2 : t < 2 ^ 63)
    (ha : ∀ ch ∈ a, ch ≠ ',' ∧ isSpace ch = false)
    (hb : ∀ ch ∈ b, ch ≠ ',' ∧ isSpace ch = false) :
    scanHeader (stripeSignatureHeader t a ++ ",v1=".toList ++ b) = (t, b) := by
  have hcomma1 : ',' ∉ 't' :: '=' :: FormatInt t := by
    intro h
    rcases List.mem_cons.mp h with e | e
    · revert e; decide
    · rcases List.mem_cons.mp e with e | e
      · revert e; decide
      · exact FormatInt_no_sep t (by decide) (by decide) e
  have hsig : ∀ s : GoString, (∀ ch ∈ s, ch ≠ ',' ∧ isSpace ch = false) →
      ',' ∉ 'v' :: '1' :: '=' :: s := by
    intro s hs h
    rcases List.mem_cons.mp h with e | e
    · revert e; decide
    · rcases List.mem_cons.mp e with e | e
      · revert e; decide
      · rcases List.mem_cons.mp e with e | e
        · revert e; decide
        · exact (hs _ e).1 rfl
  have hform : stripeSignatureHeader t a ++ ",v1=".toList ++ b =
      ('t' :: '=' :: FormatInt t) ++ ',' :: (('v' :: '1' :: '=' :: a) ++
        ',' :: ('v' :: '1' :: '=' :: b)) := by
    simp [stripeSignatureHeader]
  have hsplit : Split (stripeSignatureHeader t a ++ ",v1=".toList ++ b) ',' =
      ['t' :: '=' :: FormatInt t, 'v' :: '1' :: '=' :: a, 'v' :: '1' :: '=' :: b] := by
    rw [hform, Split_append _ hcomma1, Split_append _ (hsig a ha),
      Split_of_not_mem (hsig b hb)]
  simp only [scanHeader, hsplit, List.foldl_cons, List.foldl_nil]
  rw [scanPart_timestamp _ t h1 h2, scanPart_signature _ a (fun ch hch => (ha ch hch).2),
    scanPart_signature _ b (fun ch hch => (hb ch hch).2)]

/-- With two `v1=` entries it is the last one that decides: for a fresh timestamp
that `time.Unix` represents, the header `t=<t>,v1=<a>,v1=<b>` is accepted if and only
if `b` is the correct MAC, whatever `a` is. -/
theorem VerifyWebhookSignature_last_signature (hmacSHA256 : Hmac) (c : Client)
    (body : GoString) (now : Nat) (t : Int) (a b : GoString)
    (ht0 : 0 < t) (ht : t ≤ 2 ^ 63 - 1 - 62135596800)
    (hfresh : (now : Int) - t * 10 ^ 9 ≤ 300 * 10 ^ 9)
    (ha : ∀ ch ∈ a, ch ≠ ',' ∧ isSpace ch = false)
    (hb : ∀ ch ∈ b, ch ≠ ',' ∧ isSpace ch = false) :
    VerifyWebhookSignature hmacSHA256 now c body
        (stripeSignatureHeader t a ++ ",v1=".toList ++ b) = none ↔
      b = hexEncode (hmacSHA256 c.webhookSecret (FormatInt t ++ '.' :: body)).bytes := by
  have hscan := scanHeader_two_signatures t a b (by omega) (by omega) ha hb
  have hage := timeSince_timeUnix_gt now t (by omega) (by omega)
  have hnot : ¬ (timeSince now (timeUnix t) > signatureTolerance) := by
    intro h
    have := hage.mp h
    omega
  have ht1 : t ≠ 0 := by omega
  have hne : stripeSignatureHeader t a ++ ",v1=".toList ++ b ≠ [] := by
    simp [stripeSignatureHeader]
  simp only [VerifyWebhookSignature, if_neg hne, hscan]
  by_cases hnil : b = []
  · subst hnil
    have hx := hexEncode_ne_nil (hmacSHA256 c.webhookSecret (FormatInt t ++ '.' :: body))
    simp only [true_or, if_true]
    constructor
    · intro h; cases h
    · intro h; exact absurd h.symm hx
  · rw [if_neg (by simp [hnil, ht1]), if_neg hnot]
    by_cases hmac :
        hexEncode (hmacSHA256 c.webhookSecret (FormatInt t ++ '.' :: body)).bytes = b
    · rw [if_neg (by simp [hmac])]
      exact ⟨fun _ => hmac.symm, fun _ => rfl⟩
    · rw [if_pos (by simpa using hmac)]
      constructor
      · intro h; cases h
      · intro h; exact absurd h.symm hmac

/-- C16, the code at the failing inputs: the sample notification, one hundred seconds
old, whose first `v1=` entry is the correct MAC, is rejected as a mismatch when a
second entry `v1=abc` follows and as malformed when an empty second entry `v1=`
follows, while the same header without a second entry is accepted. -/
theorem VerifyWebhookSignature_second_signature_decides :
    VerifyWebhookSignature zeroHmac sampleNow sampleClient sampleBody
      sampleRequest.stripeSignature = none ∧
    VerifyWebhookSignature zeroHmac sampleNow sampleClient sampleBody
      (headerWithSecondSignature "abc".toList) = some .signatureMismatch ∧
    VerifyWebhookSignature zeroHmac sampleNow sampleClient sampleBody
      (headerWithSecondSignature []) = some .invalidFormat := by
  refine ⟨by decide, by decide, by decide⟩

/-! ## The in-chat success notification -/

theorem length_splitOn_ge_two_iff (s : GoString) (sep : Char) :
    2 ≤ (s.splitOn sep).length ↔ sep ∈ s := by
  constructor
  · intro h
    by_contra hm
    rw [← Split_eq_splitOn, Split_of_not_mem hm] at h
    simp at h
  · intro hm
    obtain ⟨a, b, rfl, ha⟩ := exists_append_of_mem hm
    obtain ⟨tl, htl⟩ := Split_head b sep
    rw [← Split_eq_splitOn, Split_append b ha, htl]
    simp

/-- C17: `SuccessPaymentHandler` calls `ProcessPurchaseById` if and only if the invoice
payload, split on `&`, has at least two parts and its first part parses as a base-10
64-bit integer; it then makes exactly that one call, with that integer as purchase
identifier (and the second part as user name); otherwise it makes no call and leaves
the world as it is. -/
theorem SuccessPaymentHandler_spec {σ : Type} (h : Handler σ) (payload : GoString) (w : σ) :
    ((SuccessPaymentHandler h payload w).1 ≠ [] ↔
      (2 ≤ (payload.splitOn '&').length ∧
        (ParseInt ((payload.splitOn '&').getD 0 [])).2 = none)) ∧
    ((2 ≤ (payload.splitOn '&').length ∧
        (ParseInt ((payload.splitOn '&').getD 0 [])).2 = none) →
      (SuccessPaymentHandler h payload w).1 =
        [.processPurchaseById ((payload.splitOn '&').getD 1 [])
          (ParseInt ((payload.splitOn '&').getD 0 [])).1]) ∧
    (¬ (2 ≤ (payload.splitOn '&').length ∧
        (ParseInt ((payload.splitOn '&').getD 0 [])).2 = none) →
      SuccessPaymentHandler h payload w = ([], w)) := by
  have hrun : SuccessPaymentHandler h payload w =
      if 2 ≤ (payload.splitOn '&').length ∧
          (ParseInt ((payload.splitOn '&').getD 0 [])).2 = none then
        ([.processPurchaseById ((payload.splitOn '&').getD 1 [])
            (ParseInt ((payload.splitOn '&').getD 0 [])).1],
          (h.processPurchaseById ((payload.splitOn '&').getD 1 [])
            (ParseInt ((payload.splitOn '&').getD 0 [])).1 w).2)
      else ([], w) := by
    simp only [SuccessPaymentHandler, Split_eq_splitOn]
    by_cases hlen : 2 ≤ (payload.splitOn '&').length
    · rw [if_neg (by omega)]
      rcases hp : ParseInt ((payload.splitOn '&').getD 0 []) with ⟨n, e⟩
      cases e with
      | none => simp [hlen]
      | some e => simp
    · rw [if_pos (by omega)]
      simp [hlen]
  rw [hrun]
  refine ⟨?_, ?_, ?_⟩
  · split <;> simp_all
  · intro hc; rw [if_pos hc]
  · intro hc; rw [if_neg hc]

/-! ## The purchase identifier through the processor -/

theorem checkoutSessionForm_purchase_id (amountCents month purchaseID : Int)
    (successURL cancelURL : GoString) :
    GoMap.lookup (checkoutSessionForm amountCents month purchaseID successURL cancelURL)
      "metadata[purchase_id]".toList = some (FormatInt purchaseID) := by
  simp [checkoutSessionForm, GoMap.set, GoMap.lookup]

/-- C15: the purchase identifier round-trips through the processor metadata.  For
every `int64` purchase identifier, the value `CreateCheckoutSession` writes under
`metadata[purchase_id]` is its decimal rendering; delivered back as the `purchase_id`
of a verified paid `checkout.session.completed` event, it is not empty, `ParseInt`
accepts it and returns the same identifier, and `WebhookHandler` calls `fulfill` with
exactly that identifier. -/
theorem purchase_id_round_trip {σ : Type} (hmacSHA256 : Hmac)
    (jsonUnmarshal : JsonDecoder) (c : Client) (fulfill : FulfillFunc σ) (now : Nat)
    (r : Request) (st : σ) (body : GoString) (ev : Event)
    (amountCents month purchaseID : Int) (successURL cancelURL : GoString)
    (h1 : -(2 ^ 63) ≤ purchaseID) (h2 : purchaseID < 2 ^ 63)
    (hm : r.method = "POST".toList) (hb : r.body = some body)
    (hv : VerifyWebhookSignature hmacSHA256 now c body r.stripeSignature = none)
    (hj : jsonUnmarshal body = some ev)
    (ht : ev.type = "checkout.session.completed".toList)
    (hp : ev.paymentStatus = "paid".toList)
    (hid : GoMap.lookup ev.metadata "purchase_id".toList =
      GoMap.lookup (checkoutSessionForm amountCents month purchaseID successURL cancelURL)
        "metadata[purchase_id]".toList) :
    GoMap.lookup (checkoutSessionForm amountCents month purchaseID successURL cancelURL)
      "metadata[purchase_id]".toList = some (FormatInt purchaseID) ∧
    FormatInt purchaseID ≠ [] ∧
    ParseInt (FormatInt purchaseID) = (purchaseID, none) ∧
    (WebhookHandler hmacSHA256 jsonUnmarshal c fulfill now r st).fulfillCalls =
      [purchaseID] := by
  have hform := checkoutSessionForm_purchase_id amountCents month purchaseID successURL
    cancelURL
  rw [hform] at hid
  refine ⟨hform, FormatInt_ne_nil _, ParseInt_FormatInt _ h1 h2, ?_⟩
  rw [WebhookHandler_paid_session_eq hmacSHA256 jsonUnmarshal c fulfill now r st body ev
    purchaseID hm hb hv hj ht hp hid h1 h2]

/-- C15, witness: purchase 42, whose checkout session form carries `"42"`, delivered
back by the sample notification. -/
theorem purchase_id_round_trip_witness :
    GoMap.lookup (checkoutSessionForm 500 1 42 [] []) "metadata[purchase_id]".toList =
      some "42".toList ∧
    (WebhookHandler zeroHmac sampleDecoder sampleClient fulfillPurchase sampleNow
      sampleRequest sampleStore).fulfillCalls = [42] :=
  have h := purchase_id_round_trip zeroHmac sampleDecoder sampleClient fulfillPurchase
    sampleNow sampleRequest sampleStore sampleBody sampleEvent 500 1 42 [] []
    (by decide) (by decide) (by decide) (by decide) (by decide) (by decide) (by decide)
    (by decide) (by decide)
  ⟨by decide, h.2.2.2⟩

/-! ## The plan menu -/

theorem priceButtons_eq_planButtons {σ : Type} (cfg : Config) (h : Handler σ)
    (langCode : GoString) :
    priceButtons cfg h langCode = planButtons (fun p => decide (p > 0)) cfg h langCode := by
  simp only [priceButtons, planButtons, planTiers, List.filter, monthAmountToken,
    CallbackSell]
  by_cases h1 : cfg.price1 > 0 <;> by_cases h3 : cfg.price3 > 0 <;>
    by_cases h6 : cfg.price6 > 0 <;> by_cases h12 : cfg.price12 > 0 <;>
    simp [h1, h3, h6, h12]

theorem buyKeyboard_shape {σ : Type} (cfg : Config) (h : Handler σ) (langCode : GoString) :
    (buyKeyboard cfg h langCode).dropLast.flatten = priceButtons cfg h langCode ∧
    (buyKeyboard cfg h langCode).getLast? =
      some [⟨h.getText langCode "back_button".toList, "start".toList, []⟩] := by
  have hlen : (priceButtons cfg h langCode).length ≤ 4 := by
    simp only [priceButtons]
    split <;> split <;> split <;> split <;> simp
  simp only [buyKeyboard, List.dropLast_concat, List.getLast?_append, CallbackStart]
  refine ⟨?_, by simp⟩
  split
  · simp
  · split
    · simp
    · rename_i h4 h0
      have : (priceButtons cfg h langCode) = [] := by
        cases hq : priceButtons cfg h langCode with
        | nil => rfl
        | cons a l => rw [hq] at h0; simp at h0
      simp [this]

/-- C18 (amended): for all values of the four prices, `BuyCallbackHandler` renders
(with one `EditMessageText`) a keyboard whose plan buttons are exactly the tiers with
a price greater than zero, in the order 1, 3, 6, 12, each with callback data
`sell?month=<m>&amount=<price of m>`, followed by a final row holding the single back
button targeting `start`; tiers whose price is zero or negative are omitted. -/
theorem BuyCallbackHandler_plan_buttons {σ : Type} (cfg : Config) (h : Handler σ)
    (update : CallbackUpdate) (w : σ) :
    ∃ keyboard,
      (BuyCallbackHandler cfg h update w).1 =
        [.editMessageText update.chatID update.messageID
          (h.getText update.languageCode "pricing_info".toList) keyboard] ∧
      keyboard.dropLast.flatten =
        planButtons (fun p => decide (p > 0)) cfg h update.languageCode ∧
      keyboard.getLast? =
        some [⟨h.getText update.languageCode "back_button".toList, "start".toList, []⟩] := by
  refine ⟨buyKeyboard cfg h update.languageCode, rfl, ?_, (buyKeyboard_shape cfg h _).2⟩
  rw [(buyKeyboard_shape cfg h _).1, priceButtons_eq_planButtons]

/-- C18, the scenario: with prices set for 1, 3 and 12 months and the 6-month price
unset, the keyboard is one row of exactly three plan buttons and the back row. -/
theorem BuyCallbackHandler_scenario :
    renderedKeyboard (BuyCallbackHandler scenarioConfig menuHandler
      (sampleUpdate "buy".toList) 0).1 =
      some [[⟨"month_1".toList, "sell?month=1&amount=500".toList, []⟩,
             ⟨"month_3".toList, "sell?month=3&amount=1300".toList, []⟩,
             ⟨"month_12".toList, "sell?month=12&amount=4500".toList, []⟩],
            [⟨"back_button".toList, "start".toList, []⟩]] := by
  decide

/-- C18, counterexample to the claim as stated: a 1-month price of -1 is a non-zero
price, so the claim asks for a plan button for that tier, and the rendered keyboard
has none: it holds the back button only. -/
theorem BuyCallbackHandler_negative_price :
    planButtons (fun p => decide (p ≠ 0))
      { noMethodConfig with price1 := -1, price3 := 0, price6 := 0, price12 := 0 }
      menuHandler "en".toList =
      [⟨"month_1".toList, "sell?month=1&amount=-1".toList, []⟩] ∧
    renderedKeyboard (BuyCallbackHandler
      { noMethodConfig with price1 := -1, price3 := 0, price6 := 0, price12 := 0 }
      menuHandler (sampleUpdate "buy".toList) 0).1 =
      some [[⟨"back_button".toList, "start".toList, []⟩]] := by
  refine ⟨by decide, by decide⟩

/-! ## The back target of the payment callback -/

theorem backCallback_eq_expected (cfg : Config) (it : InvoiceTypes) (invoiceType : GoString)
    (month price : Int) :
    backCallback cfg it invoiceType month price =
      expectedBackTarget cfg it invoiceType month price := by
  simp only [backCallback, expectedBackTarget, hasDirectPaymentMethods, monthAmountToken,
    CallbackDirect, CallbackSell, Bool.or_eq_true]
  by_cases h1 : invoiceType = it.telegram <;>
    by_cases h2 : cfg.isTelegramStarsEnabled = true <;>
    by_cases h3 : cfg.isStripeEnabled = true <;>
    by_cases h4 : cfg.isCryptoPayEnabled = true <;>
    simp [h1, h2, h3, h4]

/-- C19: after a successful session creation (the month parses, the customer is found
and `CreatePurchase` returns a URL), `PaymentCallbackHandler` renders one row with the
pay-link button and a back button whose target is `direct?month=<month>&amount=<price>`
when the invoice type is not the Stars type and Stars is enabled together with a card
or crypto method, and `sell?month=<month>&amount=<price>` otherwise; `month` is the
parsed integer and `price` the price the configuration gives for the invoice type and
month, not the token's amount. -/
theorem PaymentCallbackHandler_back_target {σ : Type} (cfg : Config) (it : InvoiceTypes)
    (h : Handler σ) (update : CallbackUpdate) (w w1 w2 : σ) (month : Int)
    (customer : Customer) (paymentURL : GoString) (purchaseID : Int)
    (hmonth : Atoi (GoMap.get (parseCallbackData update.data) "month".toList) = (month, none))
    (hcust : h.findByTelegramId update.chatID w = (.ok (some customer), w1))
    (hpay : h.createPurchase update.username
      (priceFor cfg it (GoMap.get (parseCallbackData update.data) "invoiceType".toList) month)
      month customer (GoMap.get (parseCallbackData update.data) "invoiceType".toList) w1 =
      (.ok (paymentURL, purchaseID), w2)) :
    renderedKeyboard (PaymentCallbackHandler cfg it h update w).1 =
      some [[⟨h.getText update.languageCode "pay_button".toList, [], paymentURL⟩,
        ⟨h.getText update.languageCode "back_button".toList,
          expectedBackTarget cfg it
            (GoMap.get (parseCallbackData update.data) "invoiceType".toList) month
            (priceFor cfg it
              (GoMap.get (parseCallbackData update.data) "invoiceType".toList) month),
          []⟩]] := by
  rw [← backCallback_eq_expected]
  simp only [PaymentCallbackHandler, hmonth, hcust, hpay]
  split <;> simp [renderedKeyboard]

/-- C19, witness: a card payment for 3 months with Stars and direct methods enabled
goes back to `direct` with the configured price 1800 (the token said 1), a Stars
payment goes back to `sell`. -/
theorem PaymentCallbackHandler_back_target_witness :
    renderedKeyboard (PaymentCallbackHandler sampleConfig sampleInvoiceTypes menuHandler
      (sampleUpdate "payment?month=3&invoiceType=stripe&amount=1".toList) 0).1 =
      some [[⟨"pay_button".toList, [], "https://pay.example/42".toList⟩,
        ⟨"back_button".toList, "direct?month=3&amount=1800".toList, []⟩]] ∧
    renderedKeyboard (PaymentCallbackHandler sampleConfig sampleInvoiceTypes menuHandler
      (sampleUpdate "payment?month=3&invoiceType=telegram&amount=1".toList) 0).1 =
      some [[⟨"pay_button".toList, [], "https://pay.example/42".toList⟩,
        ⟨"back_button".toList, "sell?month=3&amount=750".toList, []⟩]] :=
  ⟨(PaymentCallbackHandler_back_target sampleConfig sampleInvoiceTypes menuHandler
      (sampleUpdate "payment?month=3&invoiceType=stripe&amount=1".toList) 0 0 1 3 ⟨7⟩
      "https://pay.example/42".toList 42 (by decide) rfl rfl).trans
      (by decide),
    (PaymentCallbackHandler_back_target sampleConfig sampleInvoiceTypes menuHandler
      (sampleUpdate "payment?month=3&invoiceType=telegram&amount=1".toList) 0 0 1 3 ⟨7⟩
      "https://pay.example/42".toList 42 (by decide) rfl rfl).trans
      (by decide)⟩

/-! ## The payment-method menus -/

theorem shouldShowStarsButton_world {σ : Type} (cfg : Config) (h : Handler σ) (chatID : Int)
    (w : σ) (hro : ReadOnlyLookups h) : (shouldShowStarsButton cfg h chatID w).2.2 = w := by
  unfold shouldShowStarsButton
  split
  · rfl
  · split
    · rfl
    · have h1 := hro.1 chatID w
      split
      · rename_i heq; rw [heq] at h1; exact h1
      · rename_i heq; rw [heq] at h1; exact h1
      · rename_i customer w1 heq
        rw [heq] at h1
        simp only at h1
        subst h1
        have h2 := hro.2 customer.id w1
        split
        · rename_i heq2; rw [heq2] at h2; exact h2
        · rename_i heq2; rw [heq2] at h2; exact h2

theorem shouldShowStarsButton_enabled {σ : Type} (cfg : Config) (h : Handler σ) (chatID : Int)
    (w : σ) (he : (shouldShowStarsButton cfg h chatID w).1 = true) :
    cfg.isTelegramStarsEnabled = true := by
  unfold shouldShowStarsButton at he
  split at he
  · simp at he
  · rename_i hs
    simpa using hs

theorem renderedKeyboard_append_edit (calls : List Call) (chatID messageID : Int)
    (keyboard : Keyboard) :
    renderedKeyboard (calls ++ [.editMessageReplyMarkup chatID messageID keyboard]) =
      some keyboard := by
  simp [renderedKeyboard]

/-- The run of `SellCallbackHandler` when the lookups are reads: the two-step chooser
when Stars is eligible and a direct method is enabled, the flat menu otherwise. -/
theorem SellCallbackHandler_rendered {σ : Type} (cfg : Config) (it : InvoiceTypes)
    (h : Handler σ) (update : CallbackUpdate) (w : σ) (hro : ReadOnlyLookups h) :
    renderedKeyboard (SellCallbackHandler cfg it h update w).1 =
      some (if (shouldShowStarsButton cfg h update.chatID w).1 = true ∧
          hasDirectPaymentMethods cfg = true then
        chooserKeyboard it h update.languageCode
          (GoMap.get (parseCallbackData update.data) "month".toList)
          (GoMap.get (parseCallbackData update.data) "amount".toList)
      else
        flatKeyboard cfg it h update.languageCode
          (GoMap.get (parseCallbackData update.data) "month".toList)
          (GoMap.get (parseCallbackData update.data) "amount".toList)
          (shouldShowStarsButton cfg h update.chatID w).1) := by
  have hw := shouldShowStarsButton_world cfg h update.chatID w hro
  have hen := shouldShowStarsButton_enabled cfg h update.chatID w
  rcases hS : shouldShowStarsButton cfg h update.chatID w with ⟨e, calls, w'⟩
  rw [hS] at hw hen
  simp only at hw hen
  subst hw
  by_cases hs : cfg.isTelegramStarsEnabled = true
  · by_cases hd : hasDirectPaymentMethods cfg = true
    · cases e with
      | true =>
        simp only [SellCallbackHandler, shouldShowPaymentMethodChoice, hs, hd, hS,
          not_true_eq_false, or_self, if_false, and_self, if_true]
        rw [renderedKeyboard_append_edit]
        simp [chooserKeyboard, methodButton, backToBuyButton, paymentToken,
          monthAmountStringToken, CallbackPayment, CallbackDirect, CallbackBuy]
      | false =>
        simp only [SellCallbackHandler, shouldShowPaymentMethodChoice, hs, hd, hS,
          not_true_eq_false, or_self, if_false, appendPaymentMethodButtons, if_true,
          Bool.false_eq_true, false_and]
        rw [renderedKeyboard_append_edit]
        cases hc : cfg.isCryptoPayEnabled <;> cases hst : cfg.isStripeEnabled <;>
          simp [flatKeyboard, methodButton, backToBuyButton, paymentToken, CallbackPayment,
            CallbackBuy, hc, hst]
    · have hd' : hasDirectPaymentMethods cfg = false := by
        cases hq : hasDirectPaymentMethods cfg <;> simp_all
      have hc : cfg.isCryptoPayEnabled = false := by
        simp only [hasDirectPaymentMethods, Bool.or_eq_false_iff] at hd'
        exact hd'.2
      have hst : cfg.isStripeEnabled = false := by
        simp only [hasDirectPaymentMethods, Bool.or_eq_false_iff] at hd'
        exact hd'.1
      cases e with
      | true =>
        simp only [SellCallbackHandler, shouldShowPaymentMethodChoice, hs, hd', hS,
          not_true_eq_false, Bool.false_eq_true, not_false_eq_true, or_true, if_true,
          appendPaymentMethodButtons, hc, hst, if_false, and_false]
        rw [renderedKeyboard_append_edit]
        simp [flatKeyboard, hc, hst, methodButton, backToBuyButton, paymentToken,
          CallbackPayment, CallbackBuy]
      | false =>
        simp only [SellCallbackHandler, shouldShowPaymentMethodChoice, hs, hd', hS,
          not_true_eq_false, Bool.false_eq_true, not_false_eq_true, or_true, if_true,
          appendPaymentMethodButtons, hc, hst, if_false, and_false]
        rw [renderedKeyboard_append_edit]
        simp [flatKeyboard, hc, hst, methodButton, backToBuyButton, paymentToken,
          CallbackPayment, CallbackBuy]
  · have hs' : cfg.isTelegramStarsEnabled = false := by
      cases hq : cfg.isTelegramStarsEnabled <;> simp_all
    have he : e = false := by
      cases e with
      | false => rfl
      | true => exact absurd (hen rfl) hs
    subst he
    simp only [SellCallbackHandler, shouldShowPaymentMethodChoice, hs', Bool.false_eq_true,
      not_false_eq_true, true_or, if_true, appendPaymentMethodButtons, if_false, false_and]
    cases hc : cfg.isCryptoPayEnabled <;> cases hst : cfg.isStripeEnabled <;>
      simp [renderedKeyboard, flatKeyboard, methodButton, backToBuyButton, paymentToken,
        CallbackPayment, CallbackBuy, hc, hst]

theorem flatKeyboard_ne_chooserKeyboard {σ : Type} (cfg : Config) (it : InvoiceTypes)
    (h : Handler σ) (langCode month amount : GoString) (starsEligible : Bool) :
    flatKeyboard cfg it h langCode month amount starsEligible ≠
      chooserKeyboard it h langCode month amount := by
  cases hc : cfg.isCryptoPayEnabled <;> cases hst : cfg.isStripeEnabled <;>
    cases starsEligible <;>
    simp [flatKeyboard, chooserKeyboard, methodButton, backToBuyButton, hc, hst]

/-- C13: when the customer and purchase lookups are reads, `SellCallbackHandler`
renders the two-step chooser if and only if the Stars method is eligible for the
customer (`shouldShowStarsButton`) and at least one direct method (card or crypto) is
enabled; the chooser is exactly a Stars button targeting `payment` with the Telegram
invoice type, a direct-payment button targeting `direct` and a back button targeting
`buy`, the first two carrying the decoded month and amount. -/
theorem SellCallbackHandler_chooser {σ : Type} (cfg : Config) (it : InvoiceTypes)
    (h : Handler σ) (update : CallbackUpdate) (w : σ) (hro : ReadOnlyLookups h) :
    renderedKeyboard (SellCallbackHandler cfg it h update w).1 =
        some (chooserKeyboard it h update.languageCode
          (GoMap.get (parseCallbackData update.data) "month".toList)
          (GoMap.get (parseCallbackData update.data) "amount".toList)) ↔
      ((shouldShowStarsButton cfg h update.chatID w).1 = true ∧
        (cfg.isStripeEnabled = true ∨ cfg.isCryptoPayEnabled = true)) := by
  have hdirect : hasDirectPaymentMethods cfg = true ↔
      (cfg.isStripeEnabled = true ∨ cfg.isCryptoPayEnabled = true) := by
    simp [hasDirectPaymentMethods]
  rw [SellCallbackHandler_rendered cfg it h update w hro, ← hdirect]
  constructor
  · intro hk
    by_contra hc
    rw [if_neg hc] at hk
    exact flatKeyboard_ne_chooserKeyboard _ _ _ _ _ _ _ (Option.some.inj hk)
  · intro hc
    rw [if_pos hc]

/-- C13, witness: crypto and Stars enabled, Stars not gated, month 3. -/
theorem SellCallbackHandler_chooser_witness :
    renderedKeyboard (SellCallbackHandler scenarioConfig sampleInvoiceTypes menuHandler
      (sampleUpdate "sell?month=3&amount=1300".toList) 0).1 =
      some [[⟨"stars_button".toList,
              "payment?month=3&invoiceType=telegram&amount=1300".toList, []⟩],
            [⟨"direct_payment_button".toList, "direct?month=3&amount=1300".toList, []⟩],
            [⟨"back_button".toList, "buy".toList, []⟩]] :=
  ((SellCallbackHandler_chooser scenarioConfig sampleInvoiceTypes menuHandler
    (sampleUpdate "sell?month=3&amount=1300".toList) 0
    ⟨fun _ _ => rfl, fun _ _ => rfl⟩).mpr ⟨by decide, Or.inr (by decide)⟩).trans (by decide)

/-- C14: when the customer and purchase lookups are reads and the two-step chooser is
not shown (Stars is not eligible, or no direct method is enabled), `SellCallbackHandler`
renders the flat keyboard: exactly the eligible methods (crypto if enabled, card if
enabled, Stars if eligible for the customer), each targeting `payment` with its
invoice type and the decoded month and amount, in the order crypto, card, Stars,
followed by one back button targeting `buy`; with no eligible method the keyboard is
the back button alone. -/
theorem SellCallbackHandler_flat {σ : Type} (cfg : Config) (it : InvoiceTypes)
    (h : Handler σ) (update : CallbackUpdate) (w : σ) (hro : ReadOnlyLookups h)
    (hflat : ¬ ((shouldShowStarsButton cfg h update.chatID w).1 = true ∧
      (cfg.isStripeEnabled = true ∨ cfg.isCryptoPayEnabled = true))) :
    renderedKeyboard (SellCallbackHandler cfg it h update w).1 =
      some (flatKeyboard cfg it h update.languageCode
        (GoMap.get (parseCallbackData update.data) "month".toList)
        (GoMap.get (parseCallbackData update.data) "amount".toList)
        (shouldShowStarsButton cfg h update.chatID w).1) ∧
    ((cfg.isCryptoPayEnabled = false ∧ cfg.isStripeEnabled = false ∧
        (shouldShowStarsButton cfg h update.chatID w).1 = false) →
      renderedKeyboard (SellCallbackHandler cfg it h update w).1 =
        some [[⟨h.getText update.languageCode "back_button".toList, "buy".toList, []⟩]]) := by
  have hdirect : hasDirectPaymentMethods cfg = true ↔
      (cfg.isStripeEnabled = true ∨ cfg.isCryptoPayEnabled = true) := by
    simp [hasDirectPaymentMethods]
  rw [← hdirect] at hflat
  rw [SellCallbackHandler_rendered cfg it h update w hro, if_neg hflat]
  refine ⟨rfl, ?_⟩
  rintro ⟨hc, hst, he⟩
  simp [flatKeyboard, hc, hst, he, backToBuyButton]

/-- C14, witness: with Stars gated and a customer without paid purchase the menu is
flat, crypto then card then back; with no method at all it is the back button. -/
theorem SellCallbackHandler_flat_witness :
    renderedKeyboard (SellCallbackHandler gatedConfig sampleInvoiceTypes menuHandler
      (sampleUpdate "sell?month=3&amount=1300".toList) 0).1 =
      some [[⟨"crypto_button".toList,
              "payment?month=3&invoiceType=crypto&amount=1300".toList, []⟩],
            [⟨"stripe_button".toList,
              "payment?month=3&invoiceType=stripe&amount=1300".toList, []⟩],
            [⟨"back_button".toList, "buy".toList, []⟩]] ∧
    renderedKeyboard (SellCallbackHandler noMethodConfig sampleInvoiceTypes menuHandler
      (sampleUpdate "sell?month=3&amount=1300".toList) 0).1 =
      some [[⟨"back_button".toList, "buy".toList, []⟩]] :=
  ⟨(SellCallbackHandler_flat gatedConfig sampleInvoiceTypes menuHandler
      (sampleUpdate "sell?month=3&amount=1300".toList) 0 ⟨fun _ _ => rfl, fun _ _ => rfl⟩
      (by decide)).1.trans (by decide),
    (SellCallbackHandler_flat noMethodConfig sampleInvoiceTypes menuHandler
      (sampleUpdate "sell?month=3&amount=1300".toList) 0 ⟨fun _ _ => rfl, fun _ _ => rfl⟩
      (by decide)).2 ⟨by decide, by decide, by decide⟩⟩

/-! ## The direct-method menu -/

theorem mem_Split (sep : Char) (n : Nat) :
    ∀ s : GoString, s.length ≤ n → ∀ seg ∈ Split s sep, sep ∉ seg ∧ ∀ c ∈ seg, c ∈ s := by
  induction n with
  | zero =>
    intro s hs seg hseg
    have : s = [] := List.length_eq_zero.mp (by omega)
    subst this
    rw [Split_of_not_mem (by simp)] at hseg
    simp only [List.mem_singleton] at hseg
    subst hseg
    simp
  | succ n ih =>
    intro s hs seg hseg
    by_cases hm : sep ∈ s
    · obtain ⟨a, b, rfl, ha⟩ := exists_append_of_mem hm
      rw [Split_append b ha] at hseg
      rcases List.mem_cons.mp hseg with e | e
      · subst e
        exact ⟨ha, fun c hc => List.mem_append_left _ hc⟩
      · have hb : b.length ≤ n := by
          simp only [List.length_append, List.length_cons] at hs
          omega
        obtain ⟨h1, h2⟩ := ih b hb seg e
        exact ⟨h1, fun c hc =>
          List.mem_append_right _ (List.mem_cons_of_mem _ (h2 c hc))⟩
    · rw [Split_of_not_mem hm] at hseg
      simp only [List.mem_singleton] at hseg
      subst hseg
      exact ⟨hm, fun c hc => hc⟩

theorem not_mem_takeWhile_bne (sep : Char) (s : GoString) :
    sep ∉ s.takeWhile (· != sep) := by
  intro h
  have := List.mem_takeWhile_imp h
  simp at this

theorem mem_of_mem_cutAtFirst {sep : Char} {p k v : GoString}
    (h : cutAtFirst sep p = some (k, v)) : ∀ c ∈ v, c ∈ p := by
  unfold cutAtFirst at h
  split at h
  · simp only [Option.some.injEq, Prod.mk.injEq] at h
    obtain ⟨-, rfl⟩ := h
    intro c hc
    exact (List.dropWhile_sublist _).subset (List.mem_of_mem_drop hc)
  · cases h

/-- The values of a decoded token contain neither `?` nor `&`. -/
theorem parseCallbackData_value_clean (data k : GoString) :
    '?' ∉ GoMap.get (parseCallbackData data) k ∧ '&' ∉ GoMap.get (parseCallbackData data) k := by
  by_cases hq : '?' ∈ data
  · unfold GoMap.get
    rw [parseCallbackData_of_mem hq, lookup_foldl_addParam]
    cases hf : List.find? (fun kv => decide (kv.1 = k))
        (List.filterMap (cutAtFirst '=') ((queryText data).splitOn '&')).reverse with
    | none => simp [GoMap.lookup]
    | some kv =>
      have hmem := List.mem_of_find?_eq_some hf
      rw [List.mem_reverse, List.mem_filterMap] at hmem
      obtain ⟨seg, hseg, hcut⟩ := hmem
      rw [← Split_eq_splitOn] at hseg
      obtain ⟨h1, h2⟩ := mem_Split '&' _ (queryText data) (le_refl _) seg hseg
      have hv := mem_of_mem_cutAtFirst (k := kv.1) (v := kv.2) hcut
      simp only [Option.getD_some]
      constructor
      · intro hc
        have := h2 _ (hv _ hc)
        exact not_mem_takeWhile_bne '?' _ this
      · intro hc
        exact h1 (hv _ hc)
  · rw [parseCallbackData_of_not_mem hq]
    simp [GoMap.get, GoMap.lookup]

/-- A token `action?k1=v1&k2=v2...` parses back to its pairs when the action has no
`?`, the keys are distinct and free of `&`, `?` and `=`, and the values are free of
`&` and `?` (they may contain `=`). -/
theorem parseCallbackData_encode_values (action : GoString) (params : GoMap)
    (hact : '?' ∉ action) (hnd : (GoMap.keys params).Nodup)
    (hk : ∀ kv ∈ params, '&' ∉ kv.1 ∧ '?' ∉ kv.1 ∧ '=' ∉ kv.1)
    (hv : ∀ kv ∈ params, '&' ∉ kv.2 ∧ '?' ∉ kv.2) :
    parseCallbackData (encodeCallbackData action params) = params := by
  have hq : '?' ∉ joinParams params := by
    intro h
    rcases mem_joinParams h with e | ⟨kv, hm, hcm⟩
    · revert e; decide
    · rcases mem_encodeParam hcm with e | e | e
      · exact (hk kv hm).2.1 e
      · revert e; decide
      · exact (hv kv hm).2 e
  have hsplit : Split (action ++ '?' :: joinParams params) '?' =
      [action, joinParams params] := by
    rw [Split_append _ hact, Split_of_not_mem hq]
  simp only [encodeCallbackData, parseCallbackData, hsplit]
  simp only [List.length_cons, List.length_nil, List.getD_cons_succ, List.getD_cons_zero]
  rw [if_neg (by decide)]
  by_cases hne : params = []
  · subst hne
    rfl
  · have hamp := Split_joinParams params hne (fun kv hm => ⟨(hk kv hm).1, (hv kv hm).1⟩)
    rw [hamp,
      foldl_addParam_encodeParam params [] (fun kv hm => (hk kv hm).2.2) hnd
        (by simp [GoMap.keys])]
    simp

theorem parse_monthAmount_token (action month amount : GoString) (hact : '?' ∉ action)
    (hm : '?' ∉ month ∧ '&' ∉ month) (ha : '?' ∉ amount ∧ '&' ∉ amount) :
    parseCallbackData (action ++ "?month=".toList ++ month ++ "&amount=".toList ++ amount) =
      [("month".toList, month), ("amount".toList, amount)] := by
  have h := parseCallbackData_encode_values action
    [("month".toList, month), ("amount".toList, amount)] hact
    (by simp [GoMap.keys])
    (by
      intro kv hkv
      simp only [List.mem_cons, List.mem_singleton, List.mem_nil_iff, or_false] at hkv
      rcases hkv with rfl | rfl <;> simp) (by
      intro kv hkv
      simp only [List.mem_cons, List.mem_singleton, List.mem_nil_iff, or_false] at hkv
      rcases hkv with rfl | rfl
      · exact ⟨hm.2, hm.1⟩
      · exact ⟨ha.2, ha.1⟩)
  rw [← h]
  simp [encodeCallbackData, joinParams, encodeParam]

theorem parse_payment_token (month invoiceType amount : GoString)
    (hm : '?' ∉ month ∧ '&' ∉ month) (hi : '?' ∉ invoiceType ∧ '&' ∉ invoiceType)
    (ha : '?' ∉ amount ∧ '&' ∉ amount) :
    parseCallbackData ("payment?month=".toList ++ month ++ "&invoiceType=".toList ++
        invoiceType ++ "&amount=".toList ++ amount) =
      [("month".toList, month), ("invoiceType".toList, invoiceType),
        ("amount".toList, amount)] := by
  have h := parseCallbackData_encode_values "payment".toList
    [("month".toList, month), ("invoiceType".toList, invoiceType), ("amount".toList, amount)]
    (by decide) (by simp [GoMap.keys])
    (by
      intro kv hkv
      simp only [List.mem_cons, List.mem_singleton, List.mem_nil_iff, or_false] at hkv
      rcases hkv with rfl | rfl | rfl <;> simp) (by
      intro kv hkv
      simp only [List.mem_cons, List.mem_singleton, List.mem_nil_iff, or_false] at hkv
      rcases hkv with rfl | rfl | rfl
      · exact ⟨hm.2, hm.1⟩
      · exact ⟨hi.2, hi.1⟩
      · exact ⟨ha.2, ha.1⟩)
  rw [← h]
  simp [encodeCallbackData, joinParams, encodeParam]

theorem directKeyboard_eq_directMenu {σ : Type} (cfg : Config) (it : InvoiceTypes)
    (h : Handler σ) (langCode data : GoString) :
    directKeyboard cfg it h langCode data =
      directMenu cfg it h langCode (GoMap.get (parseCallbackData data) "month".toList)
        (GoMap.get (parseCallbackData data) "amount".toList) := by
  cases hc : cfg.isCryptoPayEnabled <;> cases hst : cfg.isStripeEnabled <;>
    simp [directKeyboard, directMenu, buildDirectPaymentKeyboard, methodButton, paymentToken,
      monthAmountStringToken, CallbackPayment, CallbackSell, hc, hst]

theorem methodButton_parse {σ : Type} (h : Handler σ)
    (langCode key month invoiceType amount : GoString)
    (hm : '?' ∉ month ∧ '&' ∉ month) (hi : '?' ∉ invoiceType ∧ '&' ∉ invoiceType)
    (ha : '?' ∉ amount ∧ '&' ∉ amount) :
    GoMap.get (parseCallbackData
      (methodButton h langCode key month invoiceType amount).callbackData)
        "month".toList = month ∧
    GoMap.get (parseCallbackData
      (methodButton h langCode key month invoiceType amount).callbackData)
        "amount".toList = amount ∧
    GoMap.get (parseCallbackData
      (methodButton h langCode key month invoiceType amount).callbackData)
        "invoiceType".toList = invoiceType := by
  simp only [methodButton, parse_payment_token month invoiceType amount hm hi ha]
  simp [GoMap.get, GoMap.lookup]

theorem sellBack_parse (month amount : GoString)
    (hm : '?' ∉ month ∧ '&' ∉ month) (ha : '?' ∉ amount ∧ '&' ∉ amount) :
    GoMap.get (parseCallbackData
      ("sell?month=".toList ++ month ++ "&amount=".toList ++ amount)) "month".toList = month ∧
    GoMap.get (parseCallbackData
      ("sell?month=".toList ++ month ++ "&amount=".toList ++ amount)) "amount".toList = amount ∧
    GoMap.get (parseCallbackData
      ("sell?month=".toList ++ month ++ "&amount=".toList ++ amount)) "invoiceType".toList =
      [] := by
  have h := parse_monthAmount_token "sell".toList month amount (by decide) hm ha
  have e : "sell?month=".toList ++ month ++ "&amount=".toList ++ amount =
      "sell".toList ++ "?month=".toList ++ month ++ "&amount=".toList ++ amount := by simp
  rw [e, h]
  simp [GoMap.get, GoMap.lookup]

/-- C20: `DirectPaymentCallbackHandler` shows only direct methods and goes back to
`sell`.  For every input token, and invoice type constants free of `?` and `&`, the
handler renders exactly one button per enabled direct method (card, then crypto),
each targeting `payment` with that method's invoice type, followed by a back button
whose token has action `sell`; there is no other button, so none for the Stars
method; and `parseCallbackData` reads from the back token and from every method token
the same `month` and `amount` as from the input token (absent keys reading as the
empty string). -/
theorem DirectPaymentCallbackHandler_menu {σ : Type} (cfg : Config) (it : InvoiceTypes)
    (h : Handler σ) (update : CallbackUpdate) (w : σ)
    (hstripe : '?' ∉ it.stripe ∧ '&' ∉ it.stripe)
    (hcrypto : '?' ∉ it.crypto ∧ '&' ∉ it.crypto) :
    (DirectPaymentCallbackHandler cfg it h update w).1 =
      [.editMessageReplyMarkup update.chatID update.messageID
        (directMenu cfg it h update.languageCode
          (GoMap.get (parseCallbackData update.data) "month".toList)
          (GoMap.get (parseCallbackData update.data) "amount".toList))] ∧
    (∀ row ∈ directMenu cfg it h update.languageCode
          (GoMap.get (parseCallbackData update.data) "month".toList)
          (GoMap.get (parseCallbackData update.data) "amount".toList),
      ∀ b ∈ row,
        GoMap.get (parseCallbackData b.callbackData) "month".toList =
          GoMap.get (parseCallbackData update.data) "month".toList ∧
        GoMap.get (parseCallbackData b.callbackData) "amount".toList =
          GoMap.get (parseCallbackData update.data) "amount".toList ∧
        (GoMap.get (parseCallbackData b.callbackData) "invoiceType".toList = it.stripe ∨
          GoMap.get (parseCallbackData b.callbackData) "invoiceType".toList = it.crypto ∨
          (GoMap.get (parseCallbackData b.callbackData) "invoiceType".toList = [] ∧
            b.callbackData.takeWhile (· != '?') = "sell".toList))) := by
  have hm := parseCallbackData_value_clean update.data "month".toList
  have ha := parseCallbackData_value_clean update.data "amount".toList
  refine ⟨?_, ?_⟩
  · simp only [DirectPaymentCallbackHandler, directKeyboard_eq_directMenu]
  · intro row hrow b hb
    simp only [directMenu, List.mem_append, List.mem_singleton] at hrow
    rcases hrow with (hrow | hrow) | hrow
    · split at hrow
      · simp only [List.mem_singleton] at hrow
        subst hrow
        simp only [List.mem_singleton] at hb
        subst hb
        obtain ⟨h1, h2, h3⟩ := methodButton_parse h update.languageCode
          "stripe_button".toList _ it.stripe _ hm hstripe ha
        exact ⟨h1, h2, Or.inl h3⟩
      · simp at hrow
    · split at hrow
      · simp only [List.mem_singleton] at hrow
        subst hrow
        simp only [List.mem_singleton] at hb
        subst hb
        obtain ⟨h1, h2, h3⟩ := methodButton_parse h update.languageCode
          "crypto_button".toList _ it.crypto _ hm hcrypto ha
        exact ⟨h1, h2, Or.inr (Or.inl h3)⟩
      · simp at hrow
    · subst hrow
      simp only [List.mem_singleton] at hb
      subst hb
      obtain ⟨h1, h2, h3⟩ := sellBack_parse _ _ hm ha
      refine ⟨h1, h2, Or.inr (Or.inr ⟨h3, ?_⟩)⟩
      simp [List.takeWhile]

/-- C20, witness: card and crypto enabled, the token `direct?month=3&amount=1300`. -/
theorem DirectPaymentCallbackHandler_menu_witness :
    (DirectPaymentCallbackHandler sampleConfig sampleInvoiceTypes menuHandler
      (sampleUpdate "direct?month=3&amount=1300".toList) 0).1 =
      [.editMessageReplyMarkup 1001 55
        [[⟨"stripe_button".toList,
            "payment?month=3&invoiceType=stripe&amount=1300".toList, []⟩],
         [⟨"crypto_button".toList,
            "payment?month=3&invoiceType=crypto&amount=1300".toList, []⟩],
         [⟨"back_button".toList, "sell?month=3&amount=1300".toList, []⟩]]] :=
  (DirectPaymentCallbackHandler_menu sampleConfig sampleInvoiceTypes menuHandler
    (sampleUpdate "direct?month=3&amount=1300".toList) 0
    (by decide) (by decide)).1.trans (by decide)

/-! ## The price tables of the payment callback -/

/-- Every `CreatePurchase` call of `PaymentCallbackHandler` carries the parsed month,
the invoice type of the token and the price of the price switch. -/
theorem PaymentCallbackHandler_createPurchase_args {σ : Type} (cfg : Config)
    (it : InvoiceTypes) (h : Handler σ) (update : CallbackUpdate) (w : σ)
    (username : GoString) (price month : Int) (customer : Customer) (invoiceType : GoString)
    (hmem : Call.createPurchase username price month customer invoiceType ∈
      (PaymentCallbackHandler cfg it h update w).1) :
    Atoi (GoMap.get (parseCallbackData update.data) "month".toList) = (month, none) ∧
    invoiceType = GoMap.get (parseCallbackData update.data) "invoiceType".toList ∧
    price = priceFor cfg it invoiceType month := by
  simp only [PaymentCallbackHandler] at hmem ⊢
  generalize Atoi _ = q at hmem ⊢
  obtain ⟨m, e⟩ := q
  cases e with
  | some e => simp at hmem
  | none =>
    simp only at hmem
    split at hmem
    · simp at hmem
    · simp at hmem
    · split at hmem
      · simp at hmem
        obtain ⟨-, rfl, rfl, -, rfl⟩ := hmem
        exact ⟨rfl, rfl, rfl⟩
      · split at hmem
        · simp at hmem
          obtain ⟨-, rfl, rfl, -, rfl⟩ := hmem
          exact ⟨rfl, rfl, rfl⟩
        · simp at hmem
          obtain ⟨-, rfl, rfl, -, rfl⟩ := hmem
          exact ⟨rfl, rfl, rfl⟩

theorem PaymentCallbackHandler_first_call {σ : Type} (cfg : Config) (it : InvoiceTypes)
    (h : Handler σ) (update : CallbackUpdate) (w : σ) (month : Int)
    (hmonth : Atoi (GoMap.get (parseCallbackData update.data) "month".toList) = (month, none)) :
    (PaymentCallbackHandler cfg it h update w).1.head? =
      some (.findByTelegramId update.chatID) := by
  simp only [PaymentCallbackHandler, hmonth]
  split <;> [skip; skip; (split <;> [skip; split])] <;> simp

/-- C21 (amended): `PaymentCallbackHandler` prices by the table of the token's invoice
type and tolerates unknown types.  With a parseable month `m` the handler does not
abort whatever the invoice type is: it goes on to the customer lookup and, when the
customer is found, calls `CreatePurchase` with month `m` and the token's invoice type.
The price of every such call is `StarsPrice(m)` for the Stars type, `StripePrice(m)`
for the card type, and for any other type the default table `Price(m)`, which is the
price of the crypto (direct) channel, not that of the card (Stripe) table. -/
theorem PaymentCallbackHandler_price_table {σ : Type} (cfg : Config) (it : InvoiceTypes)
    (h : Handler σ) (update : CallbackUpdate) (w : σ) (m : Int)
    (hmonth : Atoi (GoMap.get (parseCallbackData update.data) "month".toList) = (m, none)) :
    (PaymentCallbackHandler cfg it h update w).1.head? =
      some (.findByTelegramId update.chatID) ∧
    (∀ customer w1, h.findByTelegramId update.chatID w = (.ok (some customer), w1) →
      ∃ price, Call.createPurchase update.username price m customer
        (GoMap.get (parseCallbackData update.data) "invoiceType".toList) ∈
          (PaymentCallbackHandler cfg it h update w).1) ∧
    (∀ username price month customer invoiceType,
      Call.createPurchase username price month customer invoiceType ∈
        (PaymentCallbackHandler cfg it h update w).1 →
      month = m ∧
      invoiceType = GoMap.get (parseCallbackData update.data) "invoiceType".toList ∧
      (invoiceType = it.telegram → price = cfg.starsPrice m) ∧
      (invoiceType ≠ it.telegram → invoiceType = it.stripe → price = cfg.stripePrice m) ∧
      (invoiceType ≠ it.telegram → invoiceType ≠ it.stripe →
        price = cfg.price m ∧
        (it.crypto ≠ it.telegram → it.crypto ≠ it.stripe →
          price = priceFor cfg it it.crypto m))) := by
  refine ⟨PaymentCallbackHandler_first_call cfg it h update w m hmonth, ?_, ?_⟩
  · intro customer w1 hcust
    exact ⟨_, PaymentCallbackHandler_creates_purchase cfg it h update w w1 m customer
      hmonth hcust⟩
  · intro username price month customer invoiceType hmem
    obtain ⟨h1, h2, h3⟩ := PaymentCallbackHandler_createPurchase_args cfg it h update w
      username price month customer invoiceType hmem
    rw [hmonth] at h1
    have hm : month = m := by
      have := congrArg Prod.fst h1
      exact this.symm
    subst hm
    refine ⟨rfl, h2, ?_, ?_, ?_⟩
    · intro ht
      rw [h3, priceFor, if_pos ht]
    · intro ht hs
      rw [h3, priceFor, if_neg ht, if_pos hs]
    · intro ht hs
      refine ⟨by rw [h3, priceFor, if_neg ht, if_neg hs], ?_⟩
      intro hct hcs
      rw [h3, priceFor, if_neg ht, if_neg hs, priceFor, if_neg hct, if_neg hcs]

/-- C21, witness: the unknown invoice type `paypal` for 3 months is priced 1500 by
the default table and the purchase is created with that type. -/
theorem PaymentCallbackHandler_price_table_witness :
    Call.createPurchase "alice".toList 1500 3 ⟨7⟩ "paypal".toList ∈
      (PaymentCallbackHandler sampleConfig sampleInvoiceTypes menuHandler
        (sampleUpdate "payment?month=3&invoiceType=paypal&amount=1".toList) 0).1 ∧
    (1500 : Int) = sampleConfig.price 3 :=
  ⟨by decide,
    ((PaymentCallbackHandler_price_table sampleConfig sampleInvoiceTypes menuHandler
      (sampleUpdate "payment?month=3&invoiceType=paypal&amount=1".toList) 0 3
      (by decide)).2.2 "alice".toList 1500 3 ⟨7⟩ "paypal".toList
      (by decide)).2.2.2.2 (by decide) (by decide) |>.1⟩

/-- C21, counterexample to the claim as stated: with a default table of 500 a month
and a card (Stripe) table of 600 a month, the unrecognized invoice type `paypal` is
priced 1500 for 3 months, as the crypto channel is, while the card channel is priced
1800: the fallback is not the price of the card channel. -/
theorem PaymentCallbackHandler_fallback_not_card :
    Call.createPurchase "alice".toList 1500 3 ⟨7⟩ "paypal".toList ∈
      (PaymentCallbackHandler sampleConfig sampleInvoiceTypes menuHandler
        (sampleUpdate "payment?month=3&invoiceType=paypal&amount=1".toList) 0).1 ∧
    Call.createPurchase "alice".toList 1500 3 ⟨7⟩ "crypto".toList ∈
      (PaymentCallbackHandler sampleConfig sampleInvoiceTypes menuHandler
        (sampleUpdate "payment?month=3&invoiceType=crypto&amount=1".toList) 0).1 ∧
    Call.createPurchase "alice".toList 1800 3 ⟨7⟩ "stripe".toList ∈
      (PaymentCallbackHandler sampleConfig sampleInvoiceTypes menuHandler
        (sampleUpdate "payment?month=3&invoiceType=stripe&amount=1".toList) 0).1 ∧
    sampleConfig.stripePrice 3 = 1800 ∧ sampleConfig.price 3 = 1500 ∧
    (1500 : Int) ≠ 1800 := by
  refine ⟨by decide, by decide, by decide, by decide, by decide, by decide⟩

end Shop
